import Mathlib

/-!
VirtualBox OVF builder: checksum resolution and build outcome.

A shallow embedding of `builder/virtualbox/ovf/config.go` (the `OVFConfig`
record, `OVFConfig.Prepare` and `OVFConfig.parseCheckSumFile`) and of
`builder/virtualbox/ovf/builder.go` (`Builder.Prepare` and `Builder.Run`),
together with the properties that the specification states of them. The step
runner, which is not part of these sources, is modelled from the
specification.

Conventions of the embedding
* A Go `string` holding valid UTF-8 is a list of runes, `Str = List Char`.
  Indexing the first byte of a string and slicing it off (`s[0]`, `s[1:]`)
  are `List.head?` and `List.tail`; both agree with the byte-level operations
  whenever the first byte is the ASCII character that the code tests for.
* A method with a pointer receiver that mutates the configuration returns the
  new configuration next to its Go results.
* A computation either returns, panics (index out of range) or, for the
  fuel-bounded loop, exhausts its fuel: `Exec`.
* Everything the code reaches outside the package (`unicode.ToLower`,
  `url.Parse`, `http.Get`, `os.Open`, `common.HashForType`,
  `common.DownloadableURL`) is a field of the environment `Env`; theorems
  quantify over every environment. A reader over a manifest is the finite
  text it delivers, ended by the end of the input.
* Go `error` values are the constructors of `Err`, carrying the arguments of
  their format strings.
-/

namespace OVF

/-- A Go string: the sequence of its runes. -/
abbrev Str := List Char

/-- Outcome of running a piece of Go code: normal return, a run-time panic
(here always "index out of range"), or exhaustion of the fuel given to a loop. -/
inductive Exec (α : Type) where
  | ret (a : α)
  | panic
  | outOfFuel
  deriving DecidableEq, Repr

/-- The fields of `url.URL` that `Prepare` reads. -/
structure URL where
  Scheme : Str
  Path : Str
  deriving DecidableEq, Repr

/-- The error values built in `config.go`. -/
inductive Err where
  /-- The text "The source_path must be specified." -/
  | sourcePathRequired
  /-- The text "The checksum_type must be specified." -/
  | checksumTypeRequired
  /-- The text "Due to large file sizes, an checksum is required" -/
  | checksumRequired
  /-- The format "Unsupported checksum type: %s" -/
  | unsupportedChecksumType (checksumType : Str)
  /-- The format "Error parsing checksum: %s" -/
  | parsingChecksum (cause : Str)
  /-- The format "Error getting checksum from url: %s" -/
  | gettingChecksum (checksumURL : Str)
  /-- The error of `os.Open`, appended unchanged. -/
  | openFailed (cause : Str)
  /-- The format "No checksum for %q found at: %s" -/
  | notFound (base : Str) (checksumURL : Str)
  /-- The format "Error parsing checksum url: %s, scheme not supported: %s" -/
  | schemeNotSupported (checksumURL : Str) (scheme : Str)
  /-- The format "Failed to parse source_path: %s" -/
  | sourcePathInvalid (cause : Str)
  deriving DecidableEq, Repr

/-- What `config.go` uses from outside the package. -/
structure Env where
  /-- The rune mapping `unicode.ToLower`. -/
  toLowerRune : Char → Char
  /-- Whether `common.HashForType` returns a hash (not nil) for the type. -/
  HashForType : Str → Bool
  /-- The two results of `common.DownloadableURL`: the string and the error, if any. -/
  DownloadableURL : Str → Str × Option Str
  /-- The result of `url.Parse`: the URL, or the text of the error. -/
  urlParse : Str → Except Str URL
  /-- The body served for `http.Get`, `none` when the request fails. -/
  httpGet : Str → Option Str
  /-- The content of the file opened by `os.Open`, or the text of its error. -/
  osOpen : Str → Except Str Str

/-- The configuration structure for the builder. -/
structure OVFConfig where
  SourcePath : Str
  Checksum : Str
  ChecksumURL : Str
  ChecksumType : Str
  TargetPath : Str
  deriving DecidableEq, Repr

/-! Library functions used by the parser -/

/-- Go `strings.ToLower`: maps `unicode.ToLower` over the runes. -/
def ToLower (env : Env) (s : Str) : Str := s.map env.toLowerRune

/-- Go `unicode.IsSpace`: the Latin-1 cases and the `White_Space` table. -/
def isSpace (c : Char) : Bool :=
  let n := c.toNat
  (0x09 ≤ n && n ≤ 0x0d) || n == 0x20 || n == 0x85 || n == 0xa0 || n == 0x1680 ||
  (0x2000 ≤ n && n ≤ 0x200a) || n == 0x2028 || n == 0x2029 || n == 0x202f ||
  n == 0x205f || n == 0x3000

/-- The scan of `strings.Fields`: `cur` is the field being read, closed at the
next white space or at the end of the input; empty fields are not emitted. -/
def fieldsFrom : Str → Str → List Str
  | cur, [] => if cur = [] then [] else [cur]
  | cur, c :: cs =>
    if isSpace c then
      if cur = [] then fieldsFrom [] cs else cur :: fieldsFrom [] cs
    else fieldsFrom (cur ++ [c]) cs

/-- Go `strings.Fields`: the maximal runs of non-space runes. -/
def Fields (s : Str) : List Str := fieldsFrom [] s

/-- Go `filepath.Base` on a Unix system (separator `/`, no volume name). -/
def Base (path : Str) : Str :=
  if path = [] then ['.']
  else
    -- strip trailing slashes
    let p := (path.reverse.dropWhile (fun c => c == '/')).reverse
    -- keep what follows the last separator
    let p := (p.reverse.takeWhile (fun c => c != '/')).reverse
    -- empty now: the path had only slashes
    if p = [] then ['/'] else p

/-- Go `bufio.Reader.ReadString` with delimiter newline, on the unread text of
a finite stream: the data up to and including the first newline, whether the
error is non-nil (end of input met before a newline), and the text left unread. -/
def ReadString : Str → Str × Bool × Str
  | [] => ([], true, [])
  | c :: cs =>
    if c = '\n' then ([c], false, cs)
    else
      match ReadString cs with
      | (line, err, rest) => (c :: line, err, rest)

/-! parseCheckSumFile -/

/-- What the body of the read loop does with one line. -/
inductive LineStep where
  /-- Go on with the next iteration (`continue`, or the end of the body). -/
  | next
  /-- Store the checksum in the configuration and `return nil`. -/
  | found (checksum : Str)
  /-- An index expression is out of range. -/
  | panic
  deriving DecidableEq, Repr

/-- The body of the loop of `parseCheckSumFile` after the read (lines 115-135),
for checksum type `typ` and `base = filepath.Base(c.SourcePath)`. Every index
expression is checked: `parts[3]` and `parts[1][0]` panic when out of range. -/
def lineStep (env : Env) (typ base : Str) (line : Str) : LineStep :=
  let parts := Fields line
  if parts.length < 2 then .next
  else
    match parts[0]?, parts[1]? with
    | some p0, some p1 =>
      if ToLower env p0 = typ then
        -- BSD-style checksum
        if p1 = ['('] ++ base ++ [')'] then
          match parts[3]? with
          | some p3 => .found p3
          | none => .panic
        else .next
      else
        -- Standard checksum
        match p1.head? with
        | none => .panic
        | some b =>
          -- Binary mode
          let p1 := if b = '*' then p1.tail else p1
          if p1 = base then .found p0 else .next
    | _, _ => .panic

/-- The read loop of `parseCheckSumFile`, at most `fuel` iterations, on the
unread text `rd`. Returns the configuration and the error (`none` for nil). -/
def parseLoop (env : Env) (c : OVFConfig) : Nat → Str → Exec (OVFConfig × Option Err)
  | 0, _ => .outOfFuel
  | fuel + 1, rd =>
    match ReadString rd with
    | (line, err, rest) =>
      if err ∧ line = [] then
        .ret (c, some (.notFound (Base c.SourcePath) c.ChecksumURL))
      else
        match lineStep env c.ChecksumType (Base c.SourcePath) line with
        | .next => parseLoop env c fuel rest
        | .found h => .ret ({ c with Checksum := h }, none)
        | .panic => .panic

/-- The method `parseCheckSumFile` on a reader over the finite text `text`.
Each iteration that goes on consumes a rune, so `text.length + 1` iterations
always suffice (`parseCheckSumFile_eq_scan`). -/
def OVFConfig.parseCheckSumFile (env : Env) (c : OVFConfig) (text : Str) :
    Exec (OVFConfig × Option Err) :=
  parseLoop env c (text.length + 1) text

/-! Prepare -/

/-- The warning of lines 101-102. -/
def warnNone : Str :=
  ("A checksum type of 'none' was specified. Since OVA files can be big,\n" ++
    "a checksum is highly recommended.").toList

/-- The errors collected by `Prepare` before the checksum type is examined
(lines 32-34). -/
def sourcePathErrs (c : OVFConfig) : List Err :=
  if c.SourcePath = [] then [.sourcePathRequired] else []

/-- The end of `Prepare` (lines 93-105), reached by every path that does not
return early: lowercase the checksum, normalise the source path, warn on "none". -/
def prepareEnd (env : Env) (c : OVFConfig) (warnings : List Str) (errs : List Err) :
    OVFConfig × List Str × List Err :=
  let c := { c with Checksum := ToLower env c.Checksum }
  let r := env.DownloadableURL c.SourcePath
  let c := { c with SourcePath := r.1 }
  let errs :=
    match r.2 with
    | some e => errs ++ [.sourcePathInvalid e]
    | none => errs
  let warnings := if c.ChecksumType = "none".toList then warnings ++ [warnNone] else warnings
  (c, warnings, errs)

/-- What `Prepare` does with the result of `parseCheckSumFile` (lines 66-70
and 77-81): an error is appended and returned at once. -/
def afterParse (env : Env) (warnings : List Str) (errs : List Err) :
    Exec (OVFConfig × Option Err) → Exec (OVFConfig × List Str × List Err)
  | .ret (c, some err) => .ret (c, warnings, errs ++ [err])
  | .ret (c, none) => .ret (prepareEnd env c warnings errs)
  | .panic => .panic
  | .outOfFuel => .outOfFuel

/-- The method `Prepare`: the configuration after the call, the warnings and
the errors. -/
def OVFConfig.Prepare (env : Env) (c : OVFConfig) : Exec (OVFConfig × List Str × List Err) :=
  let warnings : List Str := []
  let errs : List Err := []
  let errs := if c.SourcePath = [] then errs ++ [.sourcePathRequired] else errs
  if c.ChecksumType = [] then
    .ret (prepareEnd env c warnings (errs ++ [.checksumTypeRequired]))
  else
    let c := { c with ChecksumType := ToLower env c.ChecksumType }
    if c.ChecksumType ≠ "none".toList then
      if c.Checksum = [] ∧ c.ChecksumURL = [] then
        .ret (c, warnings, errs ++ [.checksumRequired])
      else if env.HashForType c.ChecksumType = false then
        .ret (c, warnings, errs ++ [.unsupportedChecksumType c.ChecksumType])
      else if c.Checksum = [] then
        -- If checksum has no value, use checksum_url instead.
        match env.urlParse c.ChecksumURL with
        | .error e => .ret (c, warnings, errs ++ [.parsingChecksum e])
        | .ok u =>
          if u.Scheme = "http".toList ∨ u.Scheme = "https".toList then
            let res := env.httpGet c.ChecksumURL
            let c := { c with Checksum := [] }
            match res with
            | none => .ret (c, warnings, errs ++ [.gettingChecksum c.ChecksumURL])
            | some body => afterParse env warnings errs (c.parseCheckSumFile env body)
          else if u.Scheme = "file".toList then
            match env.osOpen u.Path with
            | .error e => .ret (c, warnings, errs ++ [.openFailed e])
            | .ok file => afterParse env warnings errs (c.parseCheckSumFile env file)
          else if u.Scheme = [] then
            .ret (prepareEnd env c warnings errs)
          else
            .ret (c, warnings, errs ++ [.schemeNotSupported c.ChecksumURL u.Scheme])
      else .ret (prepareEnd env c warnings errs)
    else .ret (prepareEnd env c warnings errs)

/-! A sample environment

The theorems below hold in every environment. The concrete instances are
stated in the world of the package's tests: no network, a file system given as
a list of paths with their contents, the four hash names of
`common.HashForType`, and small stand-ins for `url.Parse` and
`common.DownloadableURL` that agree with the Go functions on the URLs used. -/

/-- Sample `url.Parse`: a leading run of letters followed by a colon is the
scheme (lowercased); after "//" the authority runs up to the next slash and
the path follows; without a scheme the whole string is the path. -/
def sampleURLParse (s : Str) : Except Str URL :=
  let scheme := s.takeWhile Char.isAlpha
  match s.dropWhile Char.isAlpha with
  | ':' :: rest =>
    if scheme = [] then .error "missing protocol scheme".toList
    else
      match rest with
      | '/' :: '/' :: r => .ok ⟨scheme.map Char.toLower, r.dropWhile (fun c => c != '/')⟩
      | _ => .ok ⟨scheme.map Char.toLower, rest⟩
  | _ => .ok ⟨[], s⟩

/-- Modelled from the spec: `common.DownloadableURL` is not among the sources.
The spec calls it a "downloadable reference" normalisation that accepts a
local file system path or a URL and can fail; here a string without scheme is
a local path and gets the scheme "file", and a scheme other than "file",
"http" and "https" is an error. -/
def sampleDownloadableURL (s : Str) : Str × Option Str :=
  match sampleURLParse s with
  | .error e => ([], some e)
  | .ok u =>
    if u.Scheme = [] then
      (if s = [] then "file:".toList else "file://".toList ++ s, none)
    else if u.Scheme = "file".toList ∨ u.Scheme = "http".toList ∨ u.Scheme = "https".toList then
      (s, none)
    else ([], some ("Unsupported URL scheme: ".toList ++ u.Scheme))

/-- A world without network whose file system holds `files`. -/
def sampleEnv (files : List (Str × Str)) : Env where
  toLowerRune := Char.toLower
  HashForType := fun t =>
    t = "md5".toList ∨ t = "sha1".toList ∨ t = "sha256".toList ∨ t = "sha512".toList
  DownloadableURL := sampleDownloadableURL
  urlParse := sampleURLParse
  httpGet := fun _ => none
  osOpen := fun path =>
    match files.lookup path with
    | some content => .ok content
    | none => .error ("open ".toList ++ path ++ ": no such file or directory".toList)

/-- The configuration of `testOVFConfig` in `config_test.go`. -/
def testOVFConfig : OVFConfig where
  SourcePath := "http://www.packer.io/the-OS.ova".toList
  Checksum := "foo".toList
  ChecksumURL := []
  ChecksumType := "md5".toList
  TargetPath := []

/-- The manifest `cs_bsd_style` of the tests. -/
def cs_bsd_style : Str := "\nMD5 (other.ova) = bAr\nMD5 (the-OS.ova) = baZ\n".toList

/-- The manifest `cs_gnu_style` of the tests. -/
def cs_gnu_style : Str := "\nbAr0 *the-OS.ova\nbaZ0  other.ova\n".toList

/-- The manifest `cs_bsd_style_no_newline` of the tests. -/
def cs_bsd_style_no_newline : Str := "\nMD5 (other.ova) = bAr\nMD5 (the-OS.ova) = baZ".toList

/-- The manifest `cs_gnu_style_no_newline` of the tests. -/
def cs_gnu_style_no_newline : Str := "\nbAr0 *the-OS.ova\nbaZ0  other.ova".toList

/-- The test configuration with an empty checksum and the checksum URL of the
temporary file the tests write the manifest to. -/
def testURLConfig : OVFConfig :=
  { testOVFConfig with Checksum := [], ChecksumURL := "file:///tmp/packer-test-1".toList }

/-- The world of the tests: the temporary file holds `manifest`. -/
def testEnv (manifest : Str) : Env := sampleEnv [("/tmp/packer-test-1".toList, manifest)]

/-- The test configuration without a source path and with the checksum URL of
the temporary file. -/
def noSourceConfig : OVFConfig := { testURLConfig with SourcePath := [] }

/-- A BSD manifest for the base name of the empty path. -/
def cs_bsd_dot : Str := "MD5 (.) = baZ\n".toList

/-- A GNU manifest for the base name of the empty path. -/
def cs_gnu_dot : Str := "bAr0 *.\n".toList

/-- The test configuration with an empty checksum and a checksum URL without
scheme. -/
def noSchemeConfig : OVFConfig :=
  { testOVFConfig with Checksum := [], ChecksumURL := "checksums.txt".toList }

/-- The test configuration with an unsupported checksum type and an inline
checksum with capital letters. -/
def fakeTypeConfig : OVFConfig :=
  { testOVFConfig with ChecksumType := "fake".toList, Checksum := "FOo".toList }

/-! The manifest as a list of lines -/

/-- The lines that successive calls of `ReadString` return on `text`: each ends
with its newline, except a last line that the end of the input cuts short. -/
def readLines : Str → List Str
  | [] => []
  | c :: cs =>
    if c = '\n' then [c] :: readLines cs
    else
      match readLines cs with
      | [] => [[c]]
      | l :: ls => (c :: l) :: ls

/-- The read loop over the lines already split: the first line on which the
body returns or panics decides; without one the result is the not-found error. -/
def scanLines (env : Env) (c : OVFConfig) : List Str → Exec (OVFConfig × Option Err)
  | [] => .ret (c, some (.notFound (Base c.SourcePath) c.ChecksumURL))
  | l :: ls =>
    match lineStep env c.ChecksumType (Base c.SourcePath) l with
    | .next => scanLines env c ls
    | .found h => .ret ({ c with Checksum := h }, none)
    | .panic => .panic

/-! The dialects in the words of the specification -/

/-- Removal of one leading binary-mode marker. -/
def stripStar : Str → Str
  | [] => []
  | b :: s => if b = '*' then s else b :: s

/-- BSD dialect: field 0 is the checksum type up to letter case and field 1 is
the base name in parentheses. -/
def bsdMatch (env : Env) (typ base : Str) : List Str → Bool
  | p0 :: p1 :: _ => ToLower env p0 = typ && p1 = ['('] ++ base ++ [')']
  | _ => false

/-- GNU dialect: field 0 is not the checksum type and field 1, without a
leading star, is the base name. -/
def gnuMatch (env : Env) (typ base : Str) : List Str → Bool
  | p0 :: p1 :: _ => ToLower env p0 ≠ typ && stripStar p1 = base
  | _ => false

/-- A line, given by its fields, that matches in either dialect. -/
def lineMatches (env : Env) (typ base : Str) (parts : List Str) : Bool :=
  bsdMatch env typ base parts || gnuMatch env typ base parts

/-- The first line of the manifest `M`, as its list of fields, that matches in
either dialect. -/
def firstMatch (env : Env) (typ base : Str) (M : Str) : Option (List Str) :=
  ((readLines M).map Fields).find? (lineMatches env typ base)

/-- The manifest that `Prepare` hands to `parseCheckSumFile` for a checksum
URL (lines 52-81): the body of the response for the schemes "http" and
"https", the content of the file at the path of the URL for "file". -/
def fetchManifest (env : Env) (checksumURL : Str) : Option Str :=
  match env.urlParse checksumURL with
  | .error _ => none
  | .ok u =>
    if u.Scheme = "http".toList ∨ u.Scheme = "https".toList then env.httpGet checksumURL
    else if u.Scheme = "file".toList then
      match env.osOpen u.Path with
      | .ok file => some file
      | .error _ => none
    else none

/-- A supported algorithm name in any letter case: not empty, not "none", and
its lowercase form is known to `common.HashForType`. -/
def SupportedType (env : Env) (t : Str) : Prop :=
  t ≠ [] ∧ ToLower env t ≠ "none".toList ∧ env.HashForType (ToLower env t) = true

/-- The errors of a run of `Prepare` that returned. -/
def errorsOf : Exec (OVFConfig × List Str × List Err) → Option (List Err)
  | .ret (_, _, errs) => some errs
  | _ => none

/-- The field `Checksum` after a run of `Prepare` that returned. -/
def checksumOf : Exec (OVFConfig × List Str × List Err) → Option Str
  | .ret (c, _, _) => some c.Checksum
  | _ => none

/-! Further definitions for the properties of Prepare and of the read loop -/

/-- The error that the normalisation of the source path adds (lines 94-97). -/
def normErrs (env : Env) (c : OVFConfig) : List Err :=
  match (env.DownloadableURL c.SourcePath).2 with
  | some e => [.sourcePathInvalid e]
  | none => []

/-- A lowercase hexadecimal string: digits and the letters a to f. -/
def isLowerHex (s : Str) : Bool :=
  s.all (fun ch => ch.isDigit || ('a' ≤ ch && ch ≤ 'f'))

/-- One iteration of the read loop of `parseCheckSumFile` (lines 111-135) on
the unread text `rd`: either the loop is left with a result (`break` followed
by the return of the not-found error, `return nil`, or a panic), or the loop
goes on with the text left unread. -/
def loopIteration (env : Env) (c : OVFConfig) (rd : Str) :
    Exec (OVFConfig × Option Err) ⊕ Str :=
  match ReadString rd with
  | (line, err, rest) =>
    if err ∧ line = [] then
      .inl (.ret (c, some (.notFound (Base c.SourcePath) c.ChecksumURL)))
    else
      match lineStep env c.ChecksumType (Base c.SourcePath) line with
      | .next => .inr rest
      | .found h => .inl (.ret ({ c with Checksum := h }, none))
      | .panic => .inl .panic

/-- The test configuration without source path and with the checksum type
"none". -/
def noSourceNoneConfig : OVFConfig :=
  { testOVFConfig with SourcePath := [], ChecksumType := "none".toList }

/-- The test configuration with an empty checksum and a checksum URL of
scheme "ftp". -/
def ftpURLConfig : OVFConfig :=
  { testOVFConfig with
    Checksum := []
    ChecksumURL := "ftp://www.packer.io/checksums.txt".toList }

/-- A manifest whose lines name the target in another letter case and with a
directory in front. -/
def cs_other_names : Str := "aaa the-os.ova\nbbb dir/the-OS.ova\n".toList

/-- A manifest with two lines for the target. -/
def cs_two_lines : Str := "aaa the-OS.ova\nbbb the-OS.ova\n".toList

/-! builder.go: the configuration of the builder and Builder.Prepare -/

/-- What `builder.go` reads from the configurations embedded in `Config`
(`common.PackerConfig`, `vboxcommon.OutputConfig`, `vboxcommon.ShutdownConfig`);
`Other` stands for all their other fields. -/
structure SubConfigs where
  PackerBuildName : Str
  OutputDir : Str
  ShutdownCommand : Str
  Other : Str
  deriving DecidableEq, Repr

/-- The structure `Config` of the builder: the embedded `OVFConfig`, the other
embedded configurations, and the fields declared in `builder.go`. -/
structure Config where
  OVFConfig : OVFConfig
  Sub : SubConfigs
  BootCommand : List Str
  GuestAdditionsMode : Str
  GuestAdditionsPath : Str
  GuestAdditionsURL : Str
  GuestAdditionsSHA256 : Str
  ImportOpts : Str
  ImportFlags : List Str
  VMName : Str
  deriving DecidableEq, Repr

/-- The builder; its runner is the function `runnerRun` below. -/
structure Builder where
  config : Config
  deriving DecidableEq, Repr

/-- The errors collected in the `packer.MultiError` of `Builder.Prepare`. -/
inductive ConfigErr where
  /-- An error of `OVFConfig.Prepare`. -/
  | ovf (e : Err)
  /-- An error of one of the other embedded configurations (lines 79-89). -/
  | sub (text : Str)
  /-- The format "guest_additions_mode is invalid. Must be one of: %v" -/
  | guestAdditionsModeInvalid (validModes : List Str)
  deriving DecidableEq, Repr

/-- The error returned by `Builder.Prepare`. -/
inductive BuildErr where
  /-- The error of `config.Decode`, returned as it is. -/
  | decode (cause : Str)
  /-- The `packer.MultiError` with the errors collected. -/
  | multi (errs : List ConfigErr)
  deriving DecidableEq, Repr

/-- What `Builder.Prepare` uses from outside the package, besides `Env`. -/
structure BuildEnv where
  /-- The environment of `OVFConfig.Prepare`. -/
  ovf : Env
  /-- The calls of `Prepare` on the other embedded configurations (lines
  79-89): the configurations after the calls and the errors, in order. -/
  subPrepare : SubConfigs → SubConfigs × List Str
  /-- The decimal text of `interpolate.InitTime.Unix()`. -/
  initTimeUnix : Str

/-- Modelled from the spec: the constant `vboxcommon.GuestAdditionsModeDisable`
is not among the sources; the spec names the mode "disable". -/
def GuestAdditionsModeDisable : Str := "disable".toList

/-- Modelled from the spec: the constant `vboxcommon.GuestAdditionsModeAttach`
is not among the sources; the spec names the mode "attach". -/
def GuestAdditionsModeAttach : Str := "attach".toList

/-- Modelled from the spec: the constant `vboxcommon.GuestAdditionsModeUpload`
is not among the sources; the spec names the mode "upload". -/
def GuestAdditionsModeUpload : Str := "upload".toList

/-- The warning of lines 135-136. -/
def warnShutdown : Str :=
  ("A shutdown_command was not specified. Without a shutdown command, Packer\n" ++
    "will forcibly halt the virtual machine, which may result in data loss.").toList

/-- The default of the guest additions mode (lines 91-93). -/
def defaultGuestAdditionsMode (config : Config) : Config :=
  if config.GuestAdditionsMode = [] then
    { config with GuestAdditionsMode := "upload".toList }
  else config

/-- The default of the guest additions path (lines 95-97). -/
def defaultGuestAdditionsPath (config : Config) : Config :=
  if config.GuestAdditionsPath = [] then
    { config with GuestAdditionsPath := "VBoxGuestAdditions.iso".toList }
  else config

/-- The default of the name of the machine (lines 99-101), with the format
"packer-%s-%d". -/
def defaultVMName (env : BuildEnv) (config : Config) : Config :=
  if config.VMName = [] then
    { config with
      VMName := "packer-".toList ++ config.Sub.PackerBuildName ++ ['-'] ++ env.initTimeUnix }
  else config

/-- The import options are added to the import flags (lines 105-107). -/
def appendImportOpts (config : Config) : Config :=
  if config.ImportOpts ≠ [] then
    { config with
      ImportFlags := config.ImportFlags ++ ["--options".toList, config.ImportOpts] }
  else config

/-- The loop of lines 116-121: whether `mode` is one of `validModes`. -/
def validModeLoop (mode : Str) : List Str → Bool
  | [] => false
  | m :: ms => if mode = m then true else validModeLoop mode ms

/-- The validation of the guest additions mode (lines 109-126). -/
def checkGuestAdditionsMode (config : Config) (errs : List ConfigErr) : List ConfigErr :=
  let validModes :=
    [GuestAdditionsModeDisable, GuestAdditionsModeAttach, GuestAdditionsModeUpload]
  let validMode := validModeLoop config.GuestAdditionsMode validModes
  if validMode = false then errs ++ [.guestAdditionsModeInvalid validModes] else errs

/-- The checksum of the guest additions is lowercased (lines 128-130). -/
def lowerGuestAdditionsSHA256 (env : BuildEnv) (config : Config) : Config :=
  if config.GuestAdditionsSHA256 ≠ [] then
    { config with GuestAdditionsSHA256 := ToLower env.ovf config.GuestAdditionsSHA256 }
  else config

/-- The method `Builder.Prepare` on the result `decoded` of `config.Decode`:
the builder after the call, the warnings and the error (`none` for nil). -/
def Builder.Prepare (env : BuildEnv) (b : Builder) (decoded : Except Str Config) :
    Exec (Builder × List Str × Option BuildErr) :=
  match decoded with
  | .error e => .ret (b, [], some (.decode e))
  | .ok config =>
    -- Accumulate any errors and warnings
    match config.OVFConfig.Prepare env.ovf with
    | .panic => .panic
    | .outOfFuel => .outOfFuel
    | .ret (ovf, ovfWarnings, ovfErrs) =>
      let config := { config with OVFConfig := ovf }
      let warnings : List Str := [] ++ ovfWarnings
      let errs : List ConfigErr := ovfErrs.map .ovf
      let sub := env.subPrepare config.Sub
      let config := { config with Sub := sub.1 }
      let errs := errs ++ sub.2.map .sub
      let config := defaultGuestAdditionsMode config
      let config := defaultGuestAdditionsPath config
      let config := defaultVMName env config
      let config := appendImportOpts config
      let errs := checkGuestAdditionsMode config errs
      let config := lowerGuestAdditionsSHA256 env config
      -- Warnings
      let warnings :=
        if config.Sub.ShutdownCommand = [] then warnings ++ [warnShutdown] else warnings
      -- the multi-error is returned when it holds an error, nil otherwise
      .ret ({ config := config }, warnings, if errs ≠ [] then some (.multi errs) else none)

/-! builder.go: Builder.Run and the step runner -/

/-- A value of the state bag (a Go `interface{}`): an error, or a value of
another type, which `builder.go` does not inspect. -/
inductive Value where
  | error (text : Str)
  | other (text : Str)
  deriving DecidableEq, Repr

/-- The state bag `multistep.BasicStateBag`: keys with their values, the
latest `Put` first. -/
abbrev StateBag := List (Str × Value)

/-- The method `GetOk` of the state bag: the value of the key, if present. -/
def GetOk (state : StateBag) (key : Str) : Option Value := List.lookup key state

/-- The method `Put` of the state bag. -/
def Put (state : StateBag) (key : Str) (value : Value) : StateBag := (key, value) :: state

/-- The key "error" of the state bag, under which a step stores its error. -/
def keyError : Str := "error".toList

/-- Modelled from the spec: the key `multistep.StateCancelled` of the
"cancellation flag" is not among the sources. -/
def StateCancelled : Str := "cancelled".toList

/-- Modelled from the spec: the key `multistep.StateHalted` of the "halted
flag" is not among the sources. -/
def StateHalted : Str := "halted".toList

/-- The result of `Run` of a step. -/
inductive StepAction where
  | ActionContinue
  | ActionHalt
  deriving DecidableEq, Repr

/-- A step (`multistep.Step`): `Run` acts on the state bag and returns an
action, `Cleanup` acts on the state bag. -/
structure Step where
  Run : StateBag → StateBag × StepAction
  Cleanup : StateBag → StateBag

/-- What the runner does with the steps, by their position from 1. -/
inductive Event where
  | run (k : Nat)
  | cleanup (k : Nat)
  deriving DecidableEq, Repr

/-- How the main loop of the runner ended. -/
inductive LoopEnd where
  | completed
  | cancelled
  | halted
  deriving DecidableEq, Repr

/-- The state of the runner: the state bag, the steps started with their
positions (the latest first) and the events so far. -/
structure RunnerState where
  state : StateBag
  started : List (Nat × Step)
  log : List Event

/-- Modelled from the spec: the main loop of the step runner (`PipelineRunner`,
section 4.4) is not among the sources. The steps are run in order from
position `k`; before each `Run` the cancellation signal is checked
(`cancelSignal k` tells whether it is set then; it is recorded under the
cancellation flag) and stops the loop; a step that has run is a started step;
`Halt` stops the loop and is recorded under the halted flag. -/
def mainLoop (cancelSignal : Nat → Bool) :
    List Step → Nat → RunnerState → RunnerState × LoopEnd
  | [], _, rs => (rs, .completed)
  | s :: rest, k, rs =>
    let state :=
      if cancelSignal k then Put rs.state StateCancelled (.other "true".toList)
      else rs.state
    if (GetOk state StateCancelled).isSome then ({ rs with state := state }, .cancelled)
    else
      let r := s.Run state
      let rs1 : RunnerState :=
        { state := r.1, started := (k, s) :: rs.started, log := rs.log ++ [.run k] }
      match r.2 with
      | .ActionContinue => mainLoop cancelSignal rest (k + 1) rs1
      | .ActionHalt =>
        ({ rs1 with state := Put rs1.state StateHalted (.other "true".toList) }, .halted)

/-- Modelled from the spec: the cleanup of the step runner (section 4.4) is not
among the sources. `Cleanup` is invoked on every started step, the latest
first. -/
def cleanupAll : List (Nat × Step) → StateBag → List Event → StateBag × List Event
  | [], state, log => (state, log)
  | (k, s) :: rest, state, log => cleanupAll rest (s.Cleanup state) (log ++ [.cleanup k])

/-- Modelled from the spec: the method `Run` of the step runner (section 4.4)
is not among the sources. The main loop from position 1, then the cleanup;
the result is the state bag left and the events in order. -/
def runnerRun (cancelSignal : Nat → Bool) (steps : List Step) (state : StateBag) :
    StateBag × List Event :=
  let r := mainLoop cancelSignal steps 1 { state := state, started := [], log := [] }
  cleanupAll r.1.started r.1.state r.1.log

/-- The artifact of `vboxcommon.NewArtifact`: the directory and its files. -/
structure Artifact where
  dir : Str
  files : List Str
  deriving DecidableEq, Repr

/-- The errors returned by `Builder.Run`. -/
inductive RunErr where
  /-- The format "Failed creating VirtualBox driver: %s" -/
  | driverFailed (cause : Str)
  /-- The error stored under the key "error". -/
  | stored (text : Str)
  /-- The text "Build was cancelled." -/
  | cancelled
  /-- The text "Build was halted." -/
  | halted
  /-- The error of `vboxcommon.NewArtifact`. -/
  | artifactFailed (cause : Str)
  deriving DecidableEq, Repr

/-- What `Builder.Run` uses from outside the package. -/
structure RunEnv where
  /-- The result of `vboxcommon.NewDriver`: a handle, or the text of the error. -/
  NewDriver : Except Str Str
  /-- The steps built from the configuration (lines 156-250). -/
  steps : Config → List Step
  /-- Whether the cancellation signal is set before the step at a position. -/
  cancelSignal : Nat → Bool
  /-- The result of `vboxcommon.NewArtifact` on a directory. -/
  NewArtifact : Str → Except Str Artifact

/-- The end of `Builder.Run` (lines 265-279) on the state bag left by the
runner. The type assertion `rawErr.(error)` panics on a value that is not an
error. -/
def reportOutcome (env : RunEnv) (b : Builder) (state : StateBag) :
    Exec (Option Artifact × Option RunErr) :=
  -- Report any errors.
  match GetOk state keyError with
  | some (.error e) => .ret (none, some (.stored e))
  | some (.other _) => .panic
  | none =>
    -- If we were interrupted or cancelled, then just exit.
    if (GetOk state StateCancelled).isSome then .ret (none, some .cancelled)
    else if (GetOk state StateHalted).isSome then .ret (none, some .halted)
    else
      match env.NewArtifact b.config.Sub.OutputDir with
      | .ok a => .ret (some a, none)
      | .error e => .ret (none, some (.artifactFailed e))

/-- The state bag set up by `Builder.Run` (lines 253-259). -/
def initialState (driver : Str) : StateBag :=
  Put (Put (Put (Put (Put (Put [] "config".toList (.other "config".toList))
    "debug".toList (.other "debug".toList))
    "driver".toList (.other driver))
    "cache".toList (.other "cache".toList))
    "hook".toList (.other "hook".toList))
    "ui".toList (.other "ui".toList)

/-- The method `Builder.Run`: the artifact and the error (`none` for nil). -/
def Builder.Run (env : RunEnv) (b : Builder) : Exec (Option Artifact × Option RunErr) :=
  -- Create the driver that we'll use to communicate with VirtualBox
  match env.NewDriver with
  | .error e => .ret (none, some (.driverFailed e))
  | .ok driver =>
    -- Build the steps.
    let steps := env.steps b.config
    -- Set up the state.
    let state := initialState driver
    -- Run the steps.
    let state := (runnerRun env.cancelSignal steps state).1
    reportOutcome env b state

/-! Samples for the builder -/

/-- A step that goes on and leaves the state bag as it is. -/
def stepContinue : Step where
  Run := fun state => (state, .ActionContinue)
  Cleanup := fun state => state

/-- A step that signals a fatal error: it writes the key "error" and halts. -/
def stepFail : Step where
  Run := fun state => (Put state keyError (.error "step failed".toList), .ActionHalt)
  Cleanup := fun state => state

/-- A sample configuration of the builder around the test configuration. -/
def testConfig : Config where
  OVFConfig := testOVFConfig
  Sub := { PackerBuildName := "test".toList, OutputDir := "output-test".toList,
           ShutdownCommand := [], Other := [] }
  BootCommand := []
  GuestAdditionsMode := []
  GuestAdditionsPath := []
  GuestAdditionsURL := []
  GuestAdditionsSHA256 := []
  ImportOpts := []
  ImportFlags := []
  VMName := []

/-- A sample environment of `Builder.Prepare`: the other configurations are
left as they are and report no error. -/
def testBuildEnv : BuildEnv where
  ovf := testEnv []
  subPrepare := fun sub => (sub, [])
  initTimeUnix := "0".toList

/-- A sample environment of `Builder.Run` with the given steps. -/
def testRunEnv (steps : List Step) : RunEnv where
  NewDriver := .ok "driver".toList
  steps := fun _ => steps
  cancelSignal := fun _ => false
  NewArtifact := fun dir => .ok { dir := dir, files := [] }

/-! Definitions for the forms of the result of Prepare -/

/-- The errors of the checksum block of `Prepare` (lines 40-88), each of which
is followed by `return warnings, errs`. -/
def isChecksumErr : Err → Bool
  | .checksumRequired => true
  | .unsupportedChecksumType _ => true
  | .parsingChecksum _ => true
  | .gettingChecksum _ => true
  | .openFailed _ => true
  | .notFound _ _ => true
  | .schemeNotSupported _ _ => true
  | _ => false

/-- The manifest `M` on which the parser panics for the configuration `c`
given to `Prepare`: its first line that matches in either dialect is a BSD
line with fewer than four fields. -/
def shortBSDLine (env : Env) (c : OVFConfig) (M : Str) : Prop :=
  ∃ parts, firstMatch env (ToLower env c.ChecksumType) (Base c.SourcePath) M = some parts ∧
    bsdMatch env (ToLower env c.ChecksumType) (Base c.SourcePath) parts = true ∧
    parts.length < 4

/-- A manifest with one BSD line of two fields for the target of the tests. -/
def cs_bsd_short : Str := "MD5 (the-OS.ova)".toList

/-- The sample configuration of the builder with an empty checksum and the
checksum URL of the temporary file; its guest additions mode is empty. -/
def manifestConfig : Config := { testConfig with OVFConfig := testURLConfig }

/-- The sample environment of `Builder.Prepare` in which the temporary file
holds the manifest `cs_bsd_short`. -/
def shortManifestBuildEnv : BuildEnv := { testBuildEnv with ovf := testEnv cs_bsd_short }

/-! Lemmas on the library functions -/

theorem ToLower_eq_nil (env : Env) (s : Str) : ToLower env s = [] ↔ s = [] := by
  simp [ToLower]

/-- A leading star is removed. -/
theorem stripStar_star (s : Str) : stripStar ('*' :: s) = s := by
  simp [stripStar]

/-- A name that does not begin with a star is left as it is. -/
theorem stripStar_of_no_star (s : Str) (h : s.head? ≠ some '*') : stripStar s = s := by
  cases s with
  | nil => rfl
  | cons b bs =>
    have hb : b ≠ '*' := fun hb => h (by simp [hb])
    simp [stripStar, hb]

theorem fieldsFrom_ne_nil (s : Str) : ∀ cur f, f ∈ fieldsFrom cur s → f ≠ [] := by
  induction s with
  | nil =>
    intro cur f hf
    by_cases h : cur = []
    · simp [fieldsFrom, h] at hf
    · simp [fieldsFrom, h] at hf
      rw [hf]; exact h
  | cons c cs ih =>
    intro cur f hf
    by_cases hsp : isSpace c = true
    · by_cases h : cur = []
      · simp [fieldsFrom, hsp, h] at hf
        exact ih [] f hf
      · simp [fieldsFrom, hsp, h] at hf
        rcases hf with hf | hf
        · rw [hf]; exact h
        · exact ih [] f hf
    · simp [fieldsFrom, hsp] at hf
      exact ih _ f hf

/-- No field of `strings.Fields` is empty. -/
theorem Fields_ne_nil (s f : Str) (hf : f ∈ Fields s) : f ≠ [] :=
  fieldsFrom_ne_nil s [] f hf

theorem fieldsFrom_append_space (s : Str) (sp : Char) (hsp : isSpace sp = true) :
    ∀ cur, fieldsFrom cur (s ++ [sp]) = fieldsFrom cur s := by
  induction s with
  | nil =>
    intro cur
    by_cases h : cur = [] <;> simp [fieldsFrom, hsp, h]
  | cons c cs ih =>
    intro cur
    by_cases hc : isSpace c = true
    · by_cases h : cur = [] <;> simp [fieldsFrom, hc, h, ih]
    · simp [fieldsFrom, hc, ih]

/-- A white space at the end of a line does not change its fields. -/
theorem Fields_append_space (s : Str) (sp : Char) (hsp : isSpace sp = true) :
    Fields (s ++ [sp]) = Fields s :=
  fieldsFrom_append_space s sp hsp []

theorem readLines_eq_nil (t : Str) : readLines t = [] ↔ t = [] := by
  cases t with
  | nil => simp [readLines]
  | cons c cs =>
    by_cases hc : c = '\n'
    · simp [readLines, hc]
    · cases h : readLines cs <;> simp [readLines, hc, h]

/-- One call of `ReadString` on a non-empty text returns the first of its
lines and leaves the text of the others. -/
theorem readLines_ReadString (t : Str) (ht : t ≠ []) :
    readLines t = (ReadString t).1 :: readLines (ReadString t).2.2 := by
  induction t with
  | nil => exact absurd rfl ht
  | cons c cs ih =>
    by_cases hc : c = '\n'
    · simp [readLines, ReadString, hc]
    · cases cs with
      | nil => simp [readLines, ReadString, hc]
      | cons d ds =>
        have ih := ih (by simp)
        simp only [readLines, ReadString, hc, if_false] at ih ⊢
        rw [ih]

theorem ReadString_line_ne_nil (t : Str) (ht : t ≠ []) : (ReadString t).1 ≠ [] := by
  cases t with
  | nil => exact absurd rfl ht
  | cons c cs =>
    by_cases hc : c = '\n' <;> simp [ReadString, hc]

theorem ReadString_rest_le (t : Str) : (ReadString t).2.2.length ≤ t.length := by
  induction t with
  | nil => simp [ReadString]
  | cons c cs ih =>
    by_cases hc : c = '\n'
    · simp [ReadString, hc]
    · simp only [ReadString, hc, if_false, List.length_cons]
      exact Nat.le_succ_of_le ih

/-- The text left unread is shorter than the text before the call, unless
there was nothing to read. -/
theorem ReadString_rest_length (t : Str) (ht : t ≠ []) :
    (ReadString t).2.2.length < t.length := by
  cases t with
  | nil => exact absurd rfl ht
  | cons c cs =>
    by_cases hc : c = '\n'
    · simp [ReadString, hc]
    · simp only [ReadString, hc, if_false, List.length_cons]
      exact Nat.lt_succ_of_le (ReadString_rest_le cs)

/-- With more fuel than runes to read, the read loop is the scan of the lines. -/
theorem parseLoop_eq_scan (env : Env) (c : OVFConfig) :
    ∀ (fuel : Nat) (t : Str), t.length < fuel →
      parseLoop env c fuel t = scanLines env c (readLines t) := by
  intro fuel
  induction fuel with
  | zero => intro t h; exact absurd h (Nat.not_lt_zero _)
  | succ n ih =>
    intro t h
    by_cases ht : t = []
    · subst ht
      simp [parseLoop, ReadString, readLines, scanLines]
    · have hl := readLines_ReadString t ht
      have hne := ReadString_line_ne_nil t ht
      have hlen := ReadString_rest_length t ht
      rw [hl]
      unfold parseLoop
      simp only [scanLines]
      rw [if_neg (fun hh => hne hh.2)]
      rw [ih _ (Nat.lt_of_lt_of_le hlen (Nat.le_of_lt_succ h))]

/-- The method `parseCheckSumFile` never runs out of fuel: it is the scan of
the lines of the text. -/
theorem parseCheckSumFile_eq_scan (env : Env) (c : OVFConfig) (text : Str) :
    c.parseCheckSumFile env text = scanLines env c (readLines text) :=
  parseLoop_eq_scan env c _ text (Nat.lt_succ_self _)

/-! The loop body and the two dialects -/

/-- The loop body on a line with at least two fields, by cases as in the code. -/
theorem lineStep_of_fields (env : Env) (typ base l p0 p1 : Str) (more : List Str)
    (h : Fields l = p0 :: p1 :: more) :
    lineStep env typ base l =
      if ToLower env p0 = typ then
        if p1 = ['('] ++ base ++ [')'] then
          match more[1]? with
          | some p3 => .found p3
          | none => .panic
        else .next
      else if stripStar p1 = base then .found p0 else .next := by
  have hp1 : p1 ≠ [] := Fields_ne_nil l p1 (by rw [h]; simp)
  cases p1 with
  | nil => exact absurd rfl hp1
  | cons b bs =>
    unfold lineStep
    simp only [h, List.length_cons]
    by_cases hb : b = '*' <;> simp [stripStar, hb]

/-- The loop body on a line with fewer than two fields: `continue`. -/
theorem lineStep_of_short (env : Env) (typ base l : Str) (h : (Fields l).length < 2) :
    lineStep env typ base l = .next := by
  unfold lineStep
  simp [h]

/-- The loop body goes on to the next line exactly when the line matches in
neither dialect. -/
theorem lineStep_next_iff (env : Env) (typ base l : Str) :
    lineStep env typ base l = .next ↔ lineMatches env typ base (Fields l) = false := by
  rcases hF : Fields l with _ | ⟨p0, _ | ⟨p1, more⟩⟩
  · simp [lineStep_of_short env typ base l (by simp [hF]), lineMatches, bsdMatch, gnuMatch]
  · simp [lineStep_of_short env typ base l (by simp [hF]), lineMatches, bsdMatch, gnuMatch]
  · rw [lineStep_of_fields env typ base l p0 p1 more hF]
    by_cases h0 : ToLower env p0 = typ
    · by_cases h1 : p1 = '(' :: (base ++ [')'])
      · cases h3 : more[1]? <;> simp [h0, h1, h3, lineMatches, bsdMatch, gnuMatch]
      · simp [h0, h1, lineMatches, bsdMatch, gnuMatch]
    · by_cases h1 : stripStar p1 = base <;> simp [h0, h1, lineMatches, bsdMatch, gnuMatch]

/-- A BSD line with at least four fields yields field 3. -/
theorem lineStep_bsd (env : Env) (typ base l p0 p1 p2 p3 : Str) (more : List Str)
    (h : Fields l = p0 :: p1 :: p2 :: p3 :: more)
    (hm : bsdMatch env typ base (p0 :: p1 :: p2 :: p3 :: more) = true) :
    lineStep env typ base l = .found p3 := by
  rw [lineStep_of_fields env typ base l p0 p1 _ h]
  simp [bsdMatch] at hm
  simp [hm.1, hm.2]

/-- A GNU line yields field 0. -/
theorem lineStep_gnu (env : Env) (typ base l p0 p1 : Str) (more : List Str)
    (h : Fields l = p0 :: p1 :: more)
    (hm : gnuMatch env typ base (p0 :: p1 :: more) = true) :
    lineStep env typ base l = .found p0 := by
  rw [lineStep_of_fields env typ base l p0 p1 _ h]
  simp [gnuMatch] at hm
  simp [hm.1, hm.2]

/-- The scan returns what the loop body finds on the first matching line. -/
theorem scanLines_of_first (env : Env) (c : OVFConfig) (parts : List Str) (hash : Str)
    (hstep : ∀ l, Fields l = parts →
      lineStep env c.ChecksumType (Base c.SourcePath) l = .found hash) :
    ∀ ls : List Str,
      (ls.map Fields).find? (lineMatches env c.ChecksumType (Base c.SourcePath)) = some parts →
      scanLines env c ls = .ret ({ c with Checksum := hash }, none) := by
  intro ls
  induction ls with
  | nil => intro h; simp at h
  | cons l ls ih =>
    intro h
    by_cases hm : lineMatches env c.ChecksumType (Base c.SourcePath) (Fields l) = true
    · simp only [List.map_cons, List.find?_cons, hm, Option.some.injEq] at h
      simp [scanLines, hstep l h]
    · have hm2 : lineMatches env c.ChecksumType (Base c.SourcePath) (Fields l) = false := by
        simpa using hm
      simp only [List.map_cons, List.find?_cons, hm2] at h
      simp only [scanLines, (lineStep_next_iff env _ _ l).2 hm2]
      exact ih h

/-- The scan ends with the not-found error when no line matches. -/
theorem scanLines_of_none (env : Env) (c : OVFConfig) :
    ∀ ls : List Str,
      (ls.map Fields).find? (lineMatches env c.ChecksumType (Base c.SourcePath)) = none →
      scanLines env c ls = .ret (c, some (.notFound (Base c.SourcePath) c.ChecksumURL)) := by
  intro ls
  induction ls with
  | nil => intro _; rfl
  | cons l ls ih =>
    intro h
    by_cases hm : lineMatches env c.ChecksumType (Base c.SourcePath) (Fields l) = true
    · simp only [List.map_cons, List.find?_cons, hm] at h
      exact absurd h (by simp)
    · have hm2 : lineMatches env c.ChecksumType (Base c.SourcePath) (Fields l) = false := by
        simpa using hm
      simp only [List.map_cons, List.find?_cons, hm2] at h
      simp only [scanLines, (lineStep_next_iff env _ _ l).2 hm2]
      exact ih h

/-! Prepare with a checksum manifest -/

/-- With an empty inline checksum, a supported type and a checksum URL that
yields the manifest `M`, `Prepare` parses `M` with the lowercased type. -/
theorem Prepare_of_manifest (env : Env) (c : OVFConfig) (M : Str)
    (hck : c.Checksum = []) (hty : SupportedType env c.ChecksumType)
    (hurl : c.ChecksumURL ≠ []) (hM : fetchManifest env c.ChecksumURL = some M) :
    c.Prepare env =
      afterParse env [] (sourcePathErrs c)
        (OVFConfig.parseCheckSumFile env
          { c with ChecksumType := ToLower env c.ChecksumType } M) := by
  obtain ⟨h1, h2, h3⟩ := hty
  have hc : ({ c with ChecksumType := ToLower env c.ChecksumType, Checksum := [] } : OVFConfig)
      = { c with ChecksumType := ToLower env c.ChecksumType } := by
    cases c; simp at hck; simp [hck]
  unfold fetchManifest at hM
  unfold OVFConfig.Prepare sourcePathErrs
  simp only [String.toList] at h2 hM ⊢
  cases hu : env.urlParse c.ChecksumURL with
  | error e => simp [hu] at hM
  | ok u =>
    simp only [hu] at hM
    by_cases hs : u.Scheme = ['h', 't', 't', 'p'] ∨ u.Scheme = ['h', 't', 't', 'p', 's']
    · simp only [hs, if_true] at hM
      simp [h1, h2, h3, hck, hurl, hu, hs, hM, hc]
    · simp only [hs, if_false] at hM
      by_cases hf : u.Scheme = ['f', 'i', 'l', 'e']
      · simp only [hf, if_true] at hM
        cases ho : env.osOpen u.Path with
        | error e => simp [ho] at hM
        | ok file =>
          simp only [ho, Option.some.injEq] at hM
          subst hM
          simp [h1, h2, h3, hck, hurl, hu, hs, hf, ho]
      · simp [hf] at hM

/-- Claim C1, amended: for a configuration with a non-empty source path that
normalises, an empty inline checksum, a supported checksum type and a checksum
URL whose manifest is `M`, if the first line of `M` that matches in either
dialect has at least four fields, its field 0 is the checksum type up to
letter case and its field 1 is the base name of the source path in
parentheses, then `Prepare` returns no error and no warning and leaves the
lowercase of field 3 of that line in `Checksum`. -/
theorem Prepare_bsd_resolution (env : Env) (c : OVFConfig) (M p0 p1 p2 p3 : Str)
    (more : List Str)
    (hsrc : c.SourcePath ≠ []) (hnorm : (env.DownloadableURL c.SourcePath).2 = none)
    (hck : c.Checksum = []) (hty : SupportedType env c.ChecksumType)
    (hurl : c.ChecksumURL ≠ []) (hM : fetchManifest env c.ChecksumURL = some M)
    (hfirst : firstMatch env (ToLower env c.ChecksumType) (Base c.SourcePath) M
      = some (p0 :: p1 :: p2 :: p3 :: more))
    (h0 : ToLower env p0 = ToLower env c.ChecksumType)
    (h1 : p1 = ['('] ++ Base c.SourcePath ++ [')']) :
    c.Prepare env =
      .ret ({ c with
              ChecksumType := ToLower env c.ChecksumType
              Checksum := ToLower env p3
              SourcePath := (env.DownloadableURL c.SourcePath).1 }, [], []) := by
  rw [Prepare_of_manifest env c M hck hty hurl hM, parseCheckSumFile_eq_scan]
  have hm : bsdMatch env (ToLower env c.ChecksumType) (Base c.SourcePath)
      (p0 :: p1 :: p2 :: p3 :: more) = true := by
    simp [bsdMatch, h0, h1]
  rw [scanLines_of_first env { c with ChecksumType := ToLower env c.ChecksumType }
    (p0 :: p1 :: p2 :: p3 :: more) p3
    (fun l hl => lineStep_bsd env _ _ l p0 p1 p2 p3 more hl hm) (readLines M) hfirst]
  have hn := hty.2.1
  simp only [String.toList] at hn
  simp [afterParse, prepareEnd, sourcePathErrs, hsrc, hnorm, hn]

/-- Claim C1, instance of `Prepare_bsd_resolution`: the BSD manifest of the
tests, whose first line is for another file, resolves to "baz". -/
theorem Prepare_bsd_resolution_witness :
    testURLConfig.Prepare (testEnv cs_bsd_style) =
      .ret ({ testURLConfig with Checksum := "baz".toList }, [], []) :=
  Prepare_bsd_resolution (testEnv cs_bsd_style) testURLConfig cs_bsd_style
    "MD5".toList "(the-OS.ova)".toList "=".toList "baZ".toList []
    (by decide) (by decide) (by decide) ⟨by decide, by decide, by decide⟩
    (by decide) (by decide) (by decide) (by decide) (by decide)

/-- Claim C1 as stated fails: every condition of the claim holds for the
configuration without source path and the manifest "MD5 (.) = baZ", the
checksum is resolved to "baz", and `Prepare` returns an error. -/
theorem Prepare_bsd_resolution_without_source_path :
    noSourceConfig.Checksum = [] ∧
    SupportedType (testEnv cs_bsd_dot) noSourceConfig.ChecksumType ∧
    fetchManifest (testEnv cs_bsd_dot) noSourceConfig.ChecksumURL = some cs_bsd_dot ∧
    firstMatch (testEnv cs_bsd_dot) "md5".toList (Base noSourceConfig.SourcePath) cs_bsd_dot
      = some ["MD5".toList, "(.)".toList, "=".toList, "baZ".toList] ∧
    bsdMatch (testEnv cs_bsd_dot) "md5".toList (Base noSourceConfig.SourcePath)
      ["MD5".toList, "(.)".toList, "=".toList, "baZ".toList] = true ∧
    checksumOf (noSourceConfig.Prepare (testEnv cs_bsd_dot)) = some "baz".toList ∧
    errorsOf (noSourceConfig.Prepare (testEnv cs_bsd_dot)) = some [.sourcePathRequired] := by
  refine ⟨by decide, ⟨by decide, by decide, by decide⟩, by decide, by decide, by decide,
    by decide, by decide⟩

/-- Claim C2, amended: for a configuration with a non-empty source path that
normalises, an empty inline checksum, a supported checksum type and a checksum
URL whose manifest is `M`, if the first line of `M` that matches in either
dialect has a field 0 that is not the checksum type up to letter case and a
field 1 that, without one leading star, is the base name of the source path,
then `Prepare` returns no error and no warning and leaves the lowercase of
field 0 of that line in `Checksum`, with and without the star. -/
theorem Prepare_gnu_resolution (env : Env) (c : OVFConfig) (M p0 p1 : Str)
    (more : List Str)
    (hsrc : c.SourcePath ≠ []) (hnorm : (env.DownloadableURL c.SourcePath).2 = none)
    (hck : c.Checksum = []) (hty : SupportedType env c.ChecksumType)
    (hurl : c.ChecksumURL ≠ []) (hM : fetchManifest env c.ChecksumURL = some M)
    (hfirst : firstMatch env (ToLower env c.ChecksumType) (Base c.SourcePath) M
      = some (p0 :: p1 :: more))
    (h0 : ToLower env p0 ≠ ToLower env c.ChecksumType)
    (h1 : stripStar p1 = Base c.SourcePath) :
    c.Prepare env =
      .ret ({ c with
              ChecksumType := ToLower env c.ChecksumType
              Checksum := ToLower env p0
              SourcePath := (env.DownloadableURL c.SourcePath).1 }, [], []) := by
  rw [Prepare_of_manifest env c M hck hty hurl hM, parseCheckSumFile_eq_scan]
  have hm : gnuMatch env (ToLower env c.ChecksumType) (Base c.SourcePath)
      (p0 :: p1 :: more) = true := by
    simp [gnuMatch, h0, h1]
  rw [scanLines_of_first env { c with ChecksumType := ToLower env c.ChecksumType }
    (p0 :: p1 :: more) p0
    (fun l hl => lineStep_gnu env _ _ l p0 p1 more hl hm) (readLines M) hfirst]
  have hn := hty.2.1
  simp only [String.toList] at hn
  simp [afterParse, prepareEnd, sourcePathErrs, hsrc, hnorm, hn]

/-- Claim C2, instance of `Prepare_gnu_resolution`: the GNU manifest of the
tests resolves to "bar0". -/
theorem Prepare_gnu_resolution_witness :
    testURLConfig.Prepare (testEnv cs_gnu_style) =
      .ret ({ testURLConfig with Checksum := "bar0".toList }, [], []) :=
  Prepare_gnu_resolution (testEnv cs_gnu_style) testURLConfig cs_gnu_style
    "bAr0".toList "*the-OS.ova".toList []
    (by decide) (by decide) (by decide) ⟨by decide, by decide, by decide⟩
    (by decide) (by decide) (by decide) (by decide) (by decide)

/-- Claim C2 as stated fails: every condition of the claim holds for the
configuration without source path and the manifest "bAr0 *.", the checksum is
resolved to "bar0", and `Prepare` returns an error. -/
theorem Prepare_gnu_resolution_without_source_path :
    noSourceConfig.Checksum = [] ∧
    SupportedType (testEnv cs_gnu_dot) noSourceConfig.ChecksumType ∧
    fetchManifest (testEnv cs_gnu_dot) noSourceConfig.ChecksumURL = some cs_gnu_dot ∧
    firstMatch (testEnv cs_gnu_dot) "md5".toList (Base noSourceConfig.SourcePath) cs_gnu_dot
      = some ["bAr0".toList, "*.".toList] ∧
    gnuMatch (testEnv cs_gnu_dot) "md5".toList (Base noSourceConfig.SourcePath)
      ["bAr0".toList, "*.".toList] = true ∧
    checksumOf (noSourceConfig.Prepare (testEnv cs_gnu_dot)) = some "bar0".toList ∧
    errorsOf (noSourceConfig.Prepare (testEnv cs_gnu_dot)) = some [.sourcePathRequired] := by
  refine ⟨by decide, ⟨by decide, by decide, by decide⟩, by decide, by decide, by decide,
    by decide, by decide⟩

/-! Lines and concatenation -/

/-- A text without newline is a single line, cut short by the end of the input. -/
theorem readLines_of_no_newline (a : Str) (ha : '\n' ∉ a) (hne : a ≠ []) :
    readLines a = [a] := by
  induction a with
  | nil => exact absurd rfl hne
  | cons c cs ih =>
    have hc : c ≠ '\n' := fun h => ha (by simp [h])
    have hcs : '\n' ∉ cs := fun h => ha (by simp [h])
    cases cs with
    | nil => simp [readLines, hc]
    | cons d ds =>
      have ih := ih hcs (by simp)
      simp only [readLines, hc, if_false] at ih ⊢
      rw [ih]

/-- A text whose only newline is its last rune is a single line. -/
theorem readLines_of_line (a : Str) (ha : '\n' ∉ a) :
    readLines (a ++ ['\n']) = [a ++ ['\n']] := by
  induction a with
  | nil => simp [readLines]
  | cons c cs ih =>
    have hc : c ≠ '\n' := fun h => ha (by simp [h])
    have hcs : '\n' ∉ cs := fun h => ha (by simp [h])
    have ih := ih hcs
    rw [List.cons_append]
    simp only [readLines, hc, if_false, ih]

/-- After a newline the splitting into lines starts afresh. -/
theorem readLines_append (q s : Str) :
    readLines (q ++ '\n' :: s) = readLines (q ++ ['\n']) ++ readLines s := by
  induction q with
  | nil => simp [readLines]
  | cons c cs ih =>
    by_cases hc : c = '\n'
    · simp [readLines, hc, ih]
    · have hne : readLines (cs ++ ['\n']) ≠ [] := by
        intro h
        have := (readLines_eq_nil _).1 h
        simp at this
      rw [List.cons_append, List.cons_append]
      simp only [readLines, hc, if_false, ih]
      cases h : readLines (cs ++ ['\n']) with
      | nil => exact absurd h hne
      | cons l ls => simp

/-- Every text is a run of complete lines followed by a piece without newline. -/
theorem exists_last_line (t : Str) :
    ∃ p a : Str, t = p ++ a ∧ (p = [] ∨ ∃ q, p = q ++ ['\n']) ∧ '\n' ∉ a := by
  induction t with
  | nil => exact ⟨[], [], rfl, Or.inl rfl, by simp⟩
  | cons c cs ih =>
    obtain ⟨p, a, ht, hp, ha⟩ := ih
    by_cases hc : c = '\n'
    · refine ⟨c :: p, a, by simp [ht], Or.inr ?_, ha⟩
      rcases hp with hp | ⟨q, hq⟩
      · exact ⟨[], by simp [hp, hc]⟩
      · exact ⟨c :: q, by simp [hq]⟩
    · rcases hp with hp | ⟨q, hq⟩
      · refine ⟨[], c :: a, by simp [ht, hp], Or.inl rfl, ?_⟩
        intro h
        rcases List.mem_cons.1 h with h | h
        · exact hc h.symm
        · exact ha h
      · exact ⟨c :: p, a, by simp [ht], Or.inr ⟨c :: q, by simp [hq]⟩, ha⟩

/-- The scan of a list of lines depends on its tail only through the scan of
the tail. -/
theorem scanLines_append_congr (env : Env) (c : OVFConfig) (xs ys zs : List Str)
    (h : scanLines env c ys = scanLines env c zs) :
    scanLines env c (xs ++ ys) = scanLines env c (xs ++ zs) := by
  induction xs with
  | nil => simpa using h
  | cons l ls ih =>
    rw [List.cons_append, List.cons_append]
    simp only [scanLines, ih]

/-- A newline at the end of a line does not change what the loop body does. -/
theorem lineStep_append_newline (env : Env) (typ base l : Str) :
    lineStep env typ base (l ++ ['\n']) = lineStep env typ base l := by
  unfold lineStep
  rw [Fields_append_space l '\n' (by decide)]

/-- The scan of a last line is the same with and without its newline. -/
theorem scanLines_last_line (env : Env) (c : OVFConfig) (a : Str) (ha : '\n' ∉ a) :
    scanLines env c (readLines (a ++ ['\n'])) = scanLines env c (readLines a) := by
  rw [readLines_of_line a ha]
  by_cases hne : a = []
  · subst hne
    simp [readLines, scanLines, lineStep_of_short env _ _ ['\n'] (by decide)]
  · rw [readLines_of_no_newline a ha hne]
    simp only [scanLines, lineStep_append_newline]

/-- The scan of a text is the same with and without a newline at its end. -/
theorem scanLines_trailing_newline (env : Env) (c : OVFConfig) (t : Str) :
    scanLines env c (readLines (t ++ ['\n'])) = scanLines env c (readLines t) := by
  obtain ⟨p, a, ht, hp, ha⟩ := exists_last_line t
  rcases hp with hp | ⟨q, hq⟩
  · subst hp
    simp only [List.nil_append] at ht
    subst ht
    exact scanLines_last_line env c t ha
  · subst hq
    subst ht
    have e1 : q ++ ['\n'] ++ a ++ ['\n'] = q ++ '\n' :: (a ++ ['\n']) := by simp
    have e2 : q ++ ['\n'] ++ a = q ++ '\n' :: a := by simp
    rw [e1, e2, readLines_append, readLines_append q a]
    exact scanLines_append_congr env c _ _ _ (scanLines_last_line env c a ha)

/-! The outcomes of the parser -/

/-- A checksum found by the loop body is one of the fields of the line. -/
theorem lineStep_found_mem (env : Env) (typ base l h : Str)
    (hs : lineStep env typ base l = .found h) : h ∈ Fields l := by
  rcases hF : Fields l with _ | ⟨p0, _ | ⟨p1, more⟩⟩
  · rw [lineStep_of_short env typ base l (by simp [hF])] at hs
    exact absurd hs (by simp)
  · rw [lineStep_of_short env typ base l (by simp [hF])] at hs
    exact absurd hs (by simp)
  · rw [lineStep_of_fields env typ base l p0 p1 more hF] at hs
    by_cases h0 : ToLower env p0 = typ
    · by_cases h1 : p1 = '(' :: (base ++ [')'])
      · cases h3 : more[1]? with
        | none => simp [h0, h1, h3] at hs
        | some p3 =>
          simp [h0, h1, h3] at hs
          have hm : p3 ∈ more := List.getElem?_mem h3
          rw [← hs]
          simp [hm]
      · simp [h0, h1] at hs
    · by_cases h1 : stripStar p1 = base
      · simp [h0, h1] at hs
        simp [hs]
      · simp [h0, h1] at hs

/-- The scan ends in one of three ways: a non-empty checksum is stored and no
error returned, the not-found error is returned and the configuration is
unchanged, or an index is out of range. -/
theorem scanLines_cases (env : Env) (c : OVFConfig) (ls : List Str) :
    (∃ h, h ≠ [] ∧ scanLines env c ls = .ret ({ c with Checksum := h }, none)) ∨
    scanLines env c ls = .ret (c, some (.notFound (Base c.SourcePath) c.ChecksumURL)) ∨
    scanLines env c ls = .panic := by
  induction ls with
  | nil => exact Or.inr (Or.inl rfl)
  | cons l ls ih =>
    cases hs : lineStep env c.ChecksumType (Base c.SourcePath) l with
    | next => simpa only [scanLines, hs] using ih
    | found h =>
      refine Or.inl ⟨h, Fields_ne_nil l h (lineStep_found_mem env _ _ l h hs), ?_⟩
      simp only [scanLines, hs]
    | panic =>
      refine Or.inr (Or.inr ?_)
      simp only [scanLines, hs]

/-- The three outcomes of `parseCheckSumFile`; the fuel is never exhausted. -/
theorem parseCheckSumFile_cases (env : Env) (c : OVFConfig) (text : Str) :
    (∃ h, h ≠ [] ∧ c.parseCheckSumFile env text = .ret ({ c with Checksum := h }, none)) ∨
    c.parseCheckSumFile env text
      = .ret (c, some (.notFound (Base c.SourcePath) c.ChecksumURL)) ∨
    c.parseCheckSumFile env text = .panic := by
  rw [parseCheckSumFile_eq_scan]
  exact scanLines_cases env c (readLines text)

/-- Claim C3 fails on the code: on the one-line manifest "MD5 (the-OS.ova)"
the BSD branch reads `parts[3]` of a line with two fields, and both
`parseCheckSumFile` and `Prepare` panic instead of returning. -/
theorem parseCheckSumFile_short_bsd_line_panics :
    Fields "MD5 (the-OS.ova)".toList = ["MD5".toList, "(the-OS.ova)".toList] ∧
    testURLConfig.parseCheckSumFile (testEnv "MD5 (the-OS.ova)".toList)
      "MD5 (the-OS.ova)".toList = .panic ∧
    testURLConfig.Prepare (testEnv "MD5 (the-OS.ova)".toList) = .panic := by
  refine ⟨by decide, by decide, by decide⟩

/-- Claim C4, trailing-newline independence: `parseCheckSumFile` gives the
same outcome on a manifest text and on the text followed by a newline. This
holds for every text, in particular for one that does not end with a newline,
whose last line is therefore processed although it has no terminator. -/
theorem parseCheckSumFile_trailing_newline (env : Env) (c : OVFConfig) (t : Str) :
    c.parseCheckSumFile env (t ++ ['\n']) = c.parseCheckSumFile env t := by
  rw [parseCheckSumFile_eq_scan, parseCheckSumFile_eq_scan]
  exact scanLines_trailing_newline env c t

/-- The manifests of the tests without their final newline resolve to "baz"
and "bar0", like the manifests with it. -/
theorem Prepare_no_newline_examples :
    cs_bsd_style = cs_bsd_style_no_newline ++ ['\n'] ∧
    cs_gnu_style = cs_gnu_style_no_newline ++ ['\n'] ∧
    testURLConfig.Prepare (testEnv cs_bsd_style_no_newline) =
      .ret ({ testURLConfig with Checksum := "baz".toList }, [], []) ∧
    testURLConfig.Prepare (testEnv cs_gnu_style_no_newline) =
      .ret ({ testURLConfig with Checksum := "bar0".toList }, [], []) := by
  refine ⟨by decide, by decide, by decide, by decide⟩

/-! Prepare: the checksum is resolved or an error is returned -/

/-- After a parse, either an error is returned or the checksum is not empty. -/
theorem afterParse_resolved (env : Env) (c : OVFConfig) (warnings : List Str)
    (errs : List Err) (text : Str) :
    afterParse env warnings errs (c.parseCheckSumFile env text) = .panic ∨
    ∃ c1 w e, afterParse env warnings errs (c.parseCheckSumFile env text) = .ret (c1, w, e) ∧
      (e ≠ [] ∨ c1.Checksum ≠ []) := by
  rcases parseCheckSumFile_cases env c text with ⟨h, hne, hp⟩ | hp | hp
  · refine Or.inr ⟨_, _, _, by rw [hp]; rfl, Or.inr ?_⟩
    simpa [prepareEnd, ToLower] using hne
  · exact Or.inr ⟨_, _, _, by rw [hp]; rfl, Or.inl (by simp)⟩
  · exact Or.inl (by rw [hp]; rfl)

/-- Claim C5 as stated fails: with an empty inline checksum and the checksum
URL "checksums.txt", whose scheme is empty, `Prepare` returns no error and
leaves the checksum empty. -/
theorem Prepare_empty_scheme_unresolved :
    noSchemeConfig.ChecksumType ≠ [] ∧
    ToLower (testEnv []) noSchemeConfig.ChecksumType ≠ "none".toList ∧
    (testEnv []).urlParse noSchemeConfig.ChecksumURL = .ok ⟨[], "checksums.txt".toList⟩ ∧
    noSchemeConfig.Prepare (testEnv []) =
      .ret ({ noSchemeConfig with Checksum := [] }, [], []) := by
  refine ⟨by decide, by decide, rfl, by decide⟩

/-! Prepare: validation of the checksum fields -/

/-- Claim C6, a missing checksum is rejected: with a checksum type that is
neither empty nor "none" and with both the inline checksum and the checksum
URL empty, `Prepare` returns at once with the error "an checksum is required"
at the end of a non-empty error list, and without warning. -/
theorem Prepare_missing_checksum (env : Env) (c : OVFConfig)
    (hty : c.ChecksumType ≠ [])
    (hnone : ToLower env c.ChecksumType ≠ "none".toList)
    (hck : c.Checksum = []) (hurl : c.ChecksumURL = []) :
    c.Prepare env =
      .ret ({ c with ChecksumType := ToLower env c.ChecksumType }, [],
        sourcePathErrs c ++ [.checksumRequired]) ∧
    sourcePathErrs c ++ [.checksumRequired] ≠ [] := by
  refine ⟨?_, by simp⟩
  unfold OVFConfig.Prepare sourcePathErrs
  simp only [String.toList] at hnone ⊢
  simp [hty, hnone, hck, hurl]

/-- Claim C6, instance of `Prepare_missing_checksum`: the test configuration
with an empty checksum. -/
theorem Prepare_missing_checksum_witness :
    OVFConfig.Prepare (testEnv []) { testOVFConfig with Checksum := [] } =
      .ret ({ testOVFConfig with Checksum := [] }, [], [.checksumRequired]) :=
  (Prepare_missing_checksum (testEnv []) { testOVFConfig with Checksum := [] }
    (by decide) (by decide) (by decide) (by decide)).1

/-- Claim C7, lowercase normalisation: with a non-empty source path that
normalises, a supported checksum type in any letter case and a non-empty
inline checksum, `Prepare` returns no error and no warning and leaves the
lowercase of the type and of the checksum in the configuration. -/
theorem Prepare_lowercases (env : Env) (c : OVFConfig)
    (hsrc : c.SourcePath ≠ []) (hnorm : (env.DownloadableURL c.SourcePath).2 = none)
    (hty : SupportedType env c.ChecksumType) (hck : c.Checksum ≠ []) :
    c.Prepare env =
      .ret ({ c with
              ChecksumType := ToLower env c.ChecksumType
              Checksum := ToLower env c.Checksum
              SourcePath := (env.DownloadableURL c.SourcePath).1 }, [], []) := by
  obtain ⟨h1, h2, h3⟩ := hty
  unfold OVFConfig.Prepare
  simp only [String.toList] at h2 ⊢
  simp [h1, h2, h3, hck, hsrc, prepareEnd, hnorm]

/-- Claim C7, instance of `Prepare_lowercases`: type "mD5" becomes "md5" and
checksum "FOo" becomes "foo". -/
theorem Prepare_lowercases_witness :
    OVFConfig.Prepare (testEnv [])
        { testOVFConfig with ChecksumType := "mD5".toList, Checksum := "FOo".toList } =
      .ret ({ testOVFConfig with ChecksumType := "md5".toList, Checksum := "foo".toList },
        [], []) :=
  Prepare_lowercases (testEnv [])
    { testOVFConfig with ChecksumType := "mD5".toList, Checksum := "FOo".toList }
    (by decide) (by decide) ⟨by decide, by decide, by decide⟩ (by decide)

/-- Claim C8, an unsupported checksum type is rejected: with a checksum type
that is not empty, not "none" and not supported, `Prepare` returns at once
with a non-empty error list and no warning, whether or not a checksum or a
checksum URL is given; the result is the same whatever `url.Parse`, `http.Get`
and `os.Open` would return, so no manifest is fetched. -/
theorem Prepare_unsupported_type (env : Env) (c : OVFConfig)
    (hty : c.ChecksumType ≠ [])
    (hnone : ToLower env c.ChecksumType ≠ "none".toList)
    (hsup : env.HashForType (ToLower env c.ChecksumType) = false) :
    (c.Prepare env =
      .ret ({ c with ChecksumType := ToLower env c.ChecksumType }, [],
        sourcePathErrs c ++
          [if c.Checksum = [] ∧ c.ChecksumURL = [] then .checksumRequired
           else .unsupportedChecksumType (ToLower env c.ChecksumType)])) ∧
    (∀ (parse : Str → Except Str URL) (get : Str → Option Str) (opn : Str → Except Str Str),
      c.Prepare { env with urlParse := parse, httpGet := get, osOpen := opn }
        = c.Prepare env) := by
  simp only [String.toList] at hnone
  constructor
  · unfold OVFConfig.Prepare sourcePathErrs
    by_cases hboth : c.Checksum = [] ∧ c.ChecksumURL = []
    · simp [hty, hnone, hboth]
    · simp [hty, hnone, hboth, hsup]
  · intro parse get opn
    unfold OVFConfig.Prepare
    simp only [ToLower] at hnone hsup
    by_cases hboth : c.Checksum = [] ∧ c.ChecksumURL = []
    · simp [hty, hnone, hboth, ToLower]
    · simp [hty, hnone, hboth, hsup, ToLower]

/-- Claim C8, instance of `Prepare_unsupported_type`: type "fake" with
checksum "foo". -/
theorem Prepare_unsupported_type_witness :
    OVFConfig.Prepare (testEnv []) { testOVFConfig with ChecksumType := "fake".toList } =
      .ret ({ testOVFConfig with ChecksumType := "fake".toList }, [],
        [.unsupportedChecksumType "fake".toList]) :=
  (Prepare_unsupported_type (testEnv []) { testOVFConfig with ChecksumType := "fake".toList }
    (by decide) (by decide) (by decide)).1

/-- Claim C9, checksum type "none": with a non-empty source path that
normalises and a checksum type equal to "none" up to letter case, `Prepare`
returns no error and exactly one warning, whatever the checksum and the
checksum URL are; the result is the same whatever `url.Parse`, `http.Get` and
`os.Open` would return, so no manifest is fetched or parsed. -/
theorem Prepare_type_none (env : Env) (c : OVFConfig)
    (hsrc : c.SourcePath ≠ []) (hnorm : (env.DownloadableURL c.SourcePath).2 = none)
    (hty : ToLower env c.ChecksumType = "none".toList) :
    (c.Prepare env =
      .ret ({ c with
              ChecksumType := "none".toList
              Checksum := ToLower env c.Checksum
              SourcePath := (env.DownloadableURL c.SourcePath).1 }, [warnNone], [])) ∧
    (∀ (parse : Str → Except Str URL) (get : Str → Option Str) (opn : Str → Except Str Str),
      c.Prepare { env with urlParse := parse, httpGet := get, osOpen := opn }
        = c.Prepare env) := by
  have hne : c.ChecksumType ≠ [] := by
    intro h
    rw [h] at hty
    simp [ToLower] at hty
  simp only [String.toList] at hty
  constructor
  · unfold OVFConfig.Prepare
    simp [hne, hty, hsrc, prepareEnd, hnorm]
  · intro parse get opn
    unfold OVFConfig.Prepare
    simp only [ToLower] at hty
    simp [hne, hty, prepareEnd, ToLower]

/-- Claim C9, instance of `Prepare_type_none`: type "none" with checksum
"foo". -/
theorem Prepare_type_none_witness :
    OVFConfig.Prepare (testEnv []) { testOVFConfig with ChecksumType := "none".toList } =
      .ret ({ testOVFConfig with ChecksumType := "none".toList }, [warnNone], []) :=
  (Prepare_type_none (testEnv []) { testOVFConfig with ChecksumType := "none".toList }
    (by decide) (by decide) (by decide)).1

/-! Prepare: an inline checksum overrides the checksum URL -/

/-- Claim C10 as stated fails: with the unsupported type "fake" and the
inline checksum "FOo", `Prepare` returns early and leaves the checksum "FOo",
which is not its lowercase "foo", whatever the checksum URL is. -/
theorem Prepare_inline_checksum_not_lowercased :
    fakeTypeConfig.Checksum ≠ [] ∧
    ToLower (testEnv []) fakeTypeConfig.Checksum = "foo".toList ∧
    checksumOf (fakeTypeConfig.Prepare (testEnv [])) = some "FOo".toList ∧
    checksumOf (OVFConfig.Prepare (testEnv [])
      { fakeTypeConfig with ChecksumURL := "file:///not_read".toList }) = some "FOo".toList := by
  refine ⟨by decide, by decide, by decide, by decide⟩

/-- With a non-empty inline checksum, `Prepare` reads neither the checksum URL
nor the network nor the file system. -/
theorem Prepare_of_inline (env : Env) (c : OVFConfig) (hck : c.Checksum ≠ []) :
    c.Prepare env =
      if c.ChecksumType = [] then
        .ret (prepareEnd env c [] (sourcePathErrs c ++ [.checksumTypeRequired]))
      else if ToLower env c.ChecksumType = "none".toList then
        .ret (prepareEnd env { c with ChecksumType := ToLower env c.ChecksumType } []
          (sourcePathErrs c))
      else if env.HashForType (ToLower env c.ChecksumType) = false then
        .ret ({ c with ChecksumType := ToLower env c.ChecksumType }, [],
          sourcePathErrs c ++ [.unsupportedChecksumType (ToLower env c.ChecksumType)])
      else
        .ret (prepareEnd env { c with ChecksumType := ToLower env c.ChecksumType } []
          (sourcePathErrs c)) := by
  unfold OVFConfig.Prepare sourcePathErrs
  simp only [String.toList]
  by_cases hty : c.ChecksumType = []
  · simp [hty]
  · by_cases hnone : ToLower env c.ChecksumType = ['n', 'o', 'n', 'e']
    · simp [hty, hnone]
    · by_cases hsup : env.HashForType (ToLower env c.ChecksumType) = false
      · simp [hty, hnone, hsup, hck]
      · simp [hty, hnone, hsup, hck]

/-- Claim C10, amended: with a non-empty inline checksum, `Prepare` returns
the same warnings and errors whatever the checksum URL is and whatever
`url.Parse`, `http.Get` and `os.Open` would return (the URL is neither parsed
nor dereferenced), the configurations left differ only in the checksum URL,
and the checksum left is the lowercase of the inline value, except after the
early return for an unsupported type, which leaves the inline value as given. -/
theorem Prepare_inline_checksum (env : Env) (c : OVFConfig) (hck : c.Checksum ≠ [])
    (url : Str) (parse : Str → Except Str URL) (get : Str → Option Str)
    (opn : Str → Except Str Str) :
    ∃ c1 w errs,
      c.Prepare env = .ret (c1, w, errs) ∧
      OVFConfig.Prepare { env with urlParse := parse, httpGet := get, osOpen := opn }
        { c with ChecksumURL := url } = .ret ({ c1 with ChecksumURL := url }, w, errs) ∧
      c1.Checksum =
        if c.ChecksumType ≠ [] ∧ ToLower env c.ChecksumType ≠ "none".toList ∧
            env.HashForType (ToLower env c.ChecksumType) = false
        then c.Checksum else ToLower env c.Checksum := by
  have e1 := Prepare_of_inline env c hck
  have e2 := Prepare_of_inline { env with urlParse := parse, httpGet := get, osOpen := opn }
    { c with ChecksumURL := url } hck
  by_cases hty : c.ChecksumType = []
  · exact ⟨_, _, _, e1.trans (if_pos hty), e2.trans (if_pos hty),
      by rw [if_neg (fun h => h.1 hty)]⟩
  · have e1 := e1.trans (if_neg hty)
    have e2 := e2.trans (if_neg hty)
    by_cases hnone : ToLower env c.ChecksumType = "none".toList
    · exact ⟨_, _, _, e1.trans (if_pos hnone), e2.trans (if_pos hnone),
        by rw [if_neg (fun h => h.2.1 hnone)]⟩
    · have e1 := e1.trans (if_neg hnone)
      have e2 := e2.trans (if_neg hnone)
      by_cases hsup : env.HashForType (ToLower env c.ChecksumType) = false
      · exact ⟨_, _, _, e1.trans (if_pos hsup), e2.trans (if_pos hsup),
          by rw [if_pos ⟨hty, hnone, hsup⟩]⟩
      · exact ⟨_, _, _, e1.trans (if_neg hsup), e2.trans (if_neg hsup),
          by rw [if_neg (fun h => hsup h.2.2)]⟩

/-- Claim C10, instance of `Prepare_inline_checksum`: the checksum "foo" with
the checksum URL "file:///not_read" behaves as with an empty checksum URL. -/
theorem Prepare_inline_checksum_witness :
    ∃ c1 w errs,
      testOVFConfig.Prepare (testEnv []) = .ret (c1, w, errs) ∧
      OVFConfig.Prepare
        { testEnv [] with
          urlParse := sampleURLParse
          httpGet := fun _ => none
          osOpen := fun _ => .error [] }
        { testOVFConfig with ChecksumURL := "file:///not_read".toList }
        = .ret ({ c1 with ChecksumURL := "file:///not_read".toList }, w, errs) ∧
      c1.Checksum =
        if testOVFConfig.ChecksumType ≠ [] ∧
            ToLower (testEnv []) testOVFConfig.ChecksumType ≠ "none".toList ∧
            (testEnv []).HashForType (ToLower (testEnv []) testOVFConfig.ChecksumType) = false
        then testOVFConfig.Checksum else ToLower (testEnv []) testOVFConfig.Checksum :=
  Prepare_inline_checksum (testEnv []) testOVFConfig (by decide)
    "file:///not_read".toList sampleURLParse (fun _ => none) (fun _ => .error [])

/-! Prepare: the forms of its result -/

/-- The three components of the result of the end of `Prepare`. -/
theorem prepareEnd_eq (env : Env) (c : OVFConfig) (warnings : List Str) (errs : List Err) :
    prepareEnd env c warnings errs =
      ({ c with
          Checksum := ToLower env c.Checksum
          SourcePath := (env.DownloadableURL c.SourcePath).1 },
        (if c.ChecksumType = "none".toList then warnings ++ [warnNone] else warnings),
        errs ++ normErrs env c) := by
  unfold prepareEnd normErrs
  cases h : (env.DownloadableURL c.SourcePath).2 <;> simp [h]

/-- The loop body panics only on a BSD line with fewer than four fields. -/
theorem lineStep_panic (env : Env) (typ base l : Str)
    (h : lineStep env typ base l = .panic) :
    bsdMatch env typ base (Fields l) = true ∧ (Fields l).length < 4 := by
  rcases hF : Fields l with _ | ⟨p0, _ | ⟨p1, more⟩⟩
  · rw [lineStep_of_short env typ base l (by simp [hF])] at h
    exact absurd h (by simp)
  · rw [lineStep_of_short env typ base l (by simp [hF])] at h
    exact absurd h (by simp)
  · rw [lineStep_of_fields env typ base l p0 p1 more hF] at h
    by_cases h0 : ToLower env p0 = typ
    · by_cases h1 : p1 = '(' :: (base ++ [')'])
      · cases h3 : more[1]? with
        | none =>
          have hlen : more.length ≤ 1 := List.getElem?_eq_none_iff.1 h3
          refine ⟨by simp [bsdMatch, h0, h1], ?_⟩
          simp only [List.length_cons]
          omega
        | some p3 => simp [h0, h1, h3] at h
      · simp [h0, h1] at h
    · by_cases h1 : stripStar p1 = base <;> simp [h0, h1] at h

/-- The scan panics only when the first matching line is a BSD line with fewer
than four fields. -/
theorem scanLines_panic (env : Env) (c : OVFConfig) (ls : List Str)
    (h : scanLines env c ls = .panic) :
    ∃ parts,
      (ls.map Fields).find? (lineMatches env c.ChecksumType (Base c.SourcePath)) = some parts ∧
      bsdMatch env c.ChecksumType (Base c.SourcePath) parts = true ∧ parts.length < 4 := by
  induction ls with
  | nil => simp [scanLines] at h
  | cons l ls ih =>
    cases hs : lineStep env c.ChecksumType (Base c.SourcePath) l with
    | next =>
      have hm := (lineStep_next_iff env _ _ l).1 hs
      simp only [scanLines, hs] at h
      obtain ⟨parts, h1, h2, h3⟩ := ih h
      exact ⟨parts, by simp only [List.map_cons, List.find?_cons, hm]; exact h1, h2, h3⟩
    | found x =>
      simp only [scanLines, hs] at h
      simp at h
    | panic =>
      obtain ⟨hb, hl⟩ := lineStep_panic env _ _ l hs
      have hm : lineMatches env c.ChecksumType (Base c.SourcePath) (Fields l) = true := by
        simp [lineMatches, hb]
      exact ⟨Fields l, by simp only [List.map_cons, List.find?_cons, hm], hb, hl⟩

/-- The parser panics only when the first matching line of the text is a BSD
line with fewer than four fields. -/
theorem parseCheckSumFile_panic (env : Env) (c : OVFConfig) (text : Str)
    (h : c.parseCheckSumFile env text = .panic) :
    ∃ parts,
      firstMatch env c.ChecksumType (Base c.SourcePath) text = some parts ∧
      bsdMatch env c.ChecksumType (Base c.SourcePath) parts = true ∧ parts.length < 4 := by
  rw [parseCheckSumFile_eq_scan] at h
  exact scanLines_panic env c (readLines text) h

/-- What `Prepare` makes of the three outcomes of the parser. -/
theorem afterParse_forms (env : Env) (c : OVFConfig) (errs : List Err) (text : Str) :
    (afterParse env [] errs (c.parseCheckSumFile env text) = .panic ∧
      c.parseCheckSumFile env text = .panic) ∨
    afterParse env [] errs (c.parseCheckSumFile env text)
      = .ret (c, [], errs ++ [.notFound (Base c.SourcePath) c.ChecksumURL]) ∨
    ∃ h, h ≠ [] ∧ afterParse env [] errs (c.parseCheckSumFile env text)
      = .ret (prepareEnd env { c with Checksum := h } [] errs) := by
  rcases parseCheckSumFile_cases env c text with ⟨h, hne, hp⟩ | hp | hp
  · exact Or.inr (Or.inr ⟨h, hne, by rw [hp]; rfl⟩)
  · exact Or.inr (Or.inl (by rw [hp]; rfl))
  · exact Or.inl ⟨by rw [hp]; rfl, hp⟩

/-- Every run of `Prepare` has one of four forms. (1) A panic of the parser:
the inline checksum is empty and the manifest fetched for the checksum URL has
a BSD line with fewer than four fields as its first matching line. (2) An
early return with one error of the checksum block after the source-path
error, without warning. (3) With an empty checksum type, the end of `Prepare`
after the two required-field errors. (4) The end of `Prepare` with the
lowercased type, which is "none" or supported, and a checksum that is not
empty, or is the inline checksum under the type "none", or is empty after a
non-empty checksum URL of empty scheme. -/
theorem Prepare_forms (env : Env) (c : OVFConfig) :
    (c.Prepare env = .panic ∧ c.Checksum = [] ∧
      ∃ M, fetchManifest env c.ChecksumURL = some M ∧ shortBSDLine env c M) ∨
    (∃ c1 e, c.ChecksumType ≠ [] ∧ ToLower env c.ChecksumType ≠ "none".toList ∧
      c.Prepare env = .ret (c1, [], sourcePathErrs c ++ [e]) ∧ isChecksumErr e = true) ∨
    (c.ChecksumType = [] ∧
      c.Prepare env = .ret (prepareEnd env c [] (sourcePathErrs c ++ [.checksumTypeRequired]))) ∨
    (∃ cs, c.ChecksumType ≠ [] ∧
      (ToLower env c.ChecksumType = "none".toList ∨
        env.HashForType (ToLower env c.ChecksumType) = true) ∧
      c.Prepare env = .ret (prepareEnd env
        { c with ChecksumType := ToLower env c.ChecksumType, Checksum := cs } []
        (sourcePathErrs c)) ∧
      (cs ≠ [] ∨
        (ToLower env c.ChecksumType = "none".toList ∧ cs = c.Checksum) ∨
        (c.Checksum = [] ∧ c.ChecksumURL ≠ [] ∧ cs = [] ∧
          env.HashForType (ToLower env c.ChecksumType) = true ∧
          ∃ u, env.urlParse c.ChecksumURL = .ok u ∧ u.Scheme = []))) := by
  generalize hP : c.Prepare env = P
  unfold OVFConfig.Prepare at hP
  unfold sourcePathErrs
  simp only [String.toList] at hP ⊢
  by_cases hty : c.ChecksumType = []
  · simp only [hty, if_true] at hP
    subst hP
    exact Or.inr (Or.inr (Or.inl ⟨hty, rfl⟩))
  · by_cases hnone : ToLower env c.ChecksumType = ['n', 'o', 'n', 'e']
    · simp only [hty, if_false, hnone, ne_eq, not_true_eq_false] at hP
      subst hP
      exact Or.inr (Or.inr (Or.inr ⟨c.Checksum, hty, Or.inl hnone, by rw [hnone]; rfl,
        Or.inr (Or.inl ⟨hnone, rfl⟩)⟩))
    · simp only [hty, if_false, hnone, ne_eq, not_false_eq_true, if_true] at hP
      by_cases hboth : c.Checksum = [] ∧ c.ChecksumURL = []
      · simp only [hboth, and_self, if_true] at hP
        subst hP
        exact Or.inr (Or.inl ⟨_, .checksumRequired, hty, hnone, rfl, rfl⟩)
      · simp only [hboth, if_false] at hP
        by_cases hsup : env.HashForType (ToLower env c.ChecksumType) = false
        · simp only [hsup, if_true] at hP
          subst hP
          exact Or.inr (Or.inl ⟨_, .unsupportedChecksumType _, hty, hnone, rfl, rfl⟩)
        · simp only [hsup, if_false] at hP
          have hsup2 : env.HashForType (ToLower env c.ChecksumType) = true := by
            simpa using hsup
          by_cases hck : c.Checksum = []
          · have hurl : c.ChecksumURL ≠ [] := fun h => hboth ⟨hck, h⟩
            simp only [hck, if_true] at hP
            cases hu : env.urlParse c.ChecksumURL with
            | error e =>
              simp only [hu] at hP
              subst hP
              exact Or.inr (Or.inl ⟨_, .parsingChecksum e, hty, hnone, rfl, rfl⟩)
            | ok u =>
              simp only [hu] at hP
              by_cases hs : u.Scheme = ['h', 't', 't', 'p'] ∨ u.Scheme = ['h', 't', 't', 'p', 's']
              · simp only [hs, if_true] at hP
                cases hg : env.httpGet c.ChecksumURL with
                | none =>
                  simp only [hg] at hP
                  subst hP
                  exact Or.inr (Or.inl ⟨_, .gettingChecksum _, hty, hnone, rfl, rfl⟩)
                | some body =>
                  simp only [hg] at hP
                  subst hP
                  have hfetch : fetchManifest env c.ChecksumURL = some body := by
                    unfold fetchManifest
                    simp only [String.toList]
                    simp [hu, hs, hg]
                  rcases afterParse_forms env
                    { c with ChecksumType := ToLower env c.ChecksumType, Checksum := [] }
                    (if c.SourcePath = [] then [] ++ [Err.sourcePathRequired] else []) body
                    with ⟨hp, hpp⟩ | hp | ⟨h, hne, hp⟩
                  · exact Or.inl ⟨hp, hck, body, hfetch,
                      parseCheckSumFile_panic env _ body hpp⟩
                  · exact Or.inr (Or.inl ⟨_, .notFound _ _, hty, hnone, hp, rfl⟩)
                  · exact Or.inr (Or.inr (Or.inr ⟨h, hty, Or.inr hsup2, hp, Or.inl hne⟩))
              · simp only [hs, if_false] at hP
                by_cases hf : u.Scheme = ['f', 'i', 'l', 'e']
                · simp only [hf, if_true] at hP
                  cases ho : env.osOpen u.Path with
                  | error e =>
                    simp only [ho] at hP
                    subst hP
                    exact Or.inr (Or.inl ⟨_, .openFailed e, hty, hnone, rfl, rfl⟩)
                  | ok file =>
                    simp only [ho] at hP
                    subst hP
                    have hfetch : fetchManifest env c.ChecksumURL = some file := by
                      unfold fetchManifest
                      simp only [String.toList]
                      simp [hu, hs, hf, ho]
                    rcases afterParse_forms env
                      { c with ChecksumType := ToLower env c.ChecksumType, Checksum := [] }
                      (if c.SourcePath = [] then [] ++ [Err.sourcePathRequired] else []) file
                      with ⟨hp, hpp⟩ | hp | ⟨h, hne, hp⟩
                    · exact Or.inl ⟨hp, hck, file, hfetch,
                        parseCheckSumFile_panic env _ file hpp⟩
                    · exact Or.inr (Or.inl ⟨_, .notFound _ _, hty, hnone, hp, rfl⟩)
                    · exact Or.inr (Or.inr (Or.inr ⟨h, hty, Or.inr hsup2, hp, Or.inl hne⟩))
                · simp only [hf, if_false] at hP
                  by_cases he : u.Scheme = []
                  · simp only [he, if_true] at hP
                    subst hP
                    exact Or.inr (Or.inr (Or.inr ⟨[], hty, Or.inr hsup2, rfl,
                      Or.inr (Or.inr ⟨hck, hurl, rfl, hsup2, u, rfl, he⟩)⟩))
                  · simp only [he, if_false] at hP
                    subst hP
                    exact Or.inr (Or.inl ⟨_, .schemeNotSupported _ _, hty, hnone, rfl, rfl⟩)
          · simp only [hck, if_false] at hP
            subst hP
            exact Or.inr (Or.inr (Or.inr ⟨c.Checksum, hty, Or.inr hsup2, rfl, Or.inl hck⟩))

/-! Prepare: accumulation of errors, resolved configuration, schemes, required fields -/

/-- Claim C13 as stated fails: on the test configuration `Prepare` returns no
error and leaves the checksum "foo", which is neither a hexadecimal string nor
"none"; the same holds for the hash "bar0" taken from the GNU manifest. -/
theorem Prepare_checksum_not_hexadecimal :
    testOVFConfig.Prepare (testEnv []) = .ret (testOVFConfig, [], []) ∧
    isLowerHex testOVFConfig.Checksum = false ∧
    testOVFConfig.Checksum ≠ "none".toList ∧
    testURLConfig.Prepare (testEnv cs_gnu_style)
      = .ret ({ testURLConfig with Checksum := "bar0".toList }, [], []) ∧
    isLowerHex "bar0".toList = false := by
  refine ⟨by decide, by decide, by decide, by decide, by decide⟩

/-- Claim C13, amended: when `Prepare` returns an empty error list, the
checksum type left is the lowercase of the given type and is "none" or a
supported algorithm name, and the checksum left is the lowercase of some
string (the inline checksum or a field of the manifest; no check for
hexadecimal digits is made). If `unicode.ToLower` never yields a capital
letter, neither field contains one. -/
theorem Prepare_resolved_invariant (env : Env) (c c1 : OVFConfig) (w : List Str)
    (h : c.Prepare env = .ret (c1, w, [])) :
    c1.ChecksumType = ToLower env c.ChecksumType ∧
    (c1.ChecksumType = "none".toList ∨ env.HashForType c1.ChecksumType = true) ∧
    (∃ s, c1.Checksum = ToLower env s) ∧
    ((∀ ch, (env.toLowerRune ch).isUpper = false) →
      (∀ ch ∈ c1.ChecksumType, ch.isUpper = false) ∧
      (∀ ch ∈ c1.Checksum, ch.isUpper = false)) := by
  have key : c1.ChecksumType = ToLower env c.ChecksumType ∧
      (c1.ChecksumType = "none".toList ∨ env.HashForType c1.ChecksumType = true) ∧
      (∃ s, c1.Checksum = ToLower env s) := by
    rcases Prepare_forms env c with ⟨hp, _⟩ | ⟨c2, e, _, _, hp, _⟩ | ⟨_, hp⟩ | ⟨cs, _, hs, hp, _⟩
    · rw [hp] at h
      exact absurd h (by simp)
    · rw [hp] at h
      simp at h
    · rw [hp, prepareEnd_eq] at h
      simp at h
    · rw [hp, prepareEnd_eq] at h
      simp only [Exec.ret.injEq, Prod.mk.injEq] at h
      obtain ⟨hc, _, _⟩ := h
      subst hc
      exact ⟨rfl, hs, ⟨cs, rfl⟩⟩
  obtain ⟨k1, k2, s, k3⟩ := key
  refine ⟨k1, k2, ⟨s, k3⟩, ?_⟩
  intro hlow
  constructor
  · intro ch hch
    rw [k1] at hch
    obtain ⟨a, _, ha⟩ := List.mem_map.1 hch
    rw [← ha]
    exact hlow a
  · intro ch hch
    rw [k3] at hch
    obtain ⟨a, _, ha⟩ := List.mem_map.1 hch
    rw [← ha]
    exact hlow a

/-- Claim C13, instance of `Prepare_resolved_invariant`: the test configuration
with type "mD5" and checksum "FOo". -/
theorem Prepare_resolved_invariant_witness :
    "md5".toList = ToLower (testEnv []) "mD5".toList ∧
    ("md5".toList = "none".toList ∨ (testEnv []).HashForType "md5".toList = true) ∧
    (∃ s, "foo".toList = ToLower (testEnv []) s) ∧
    ((∀ ch, ((testEnv []).toLowerRune ch).isUpper = false) →
      (∀ ch ∈ "md5".toList, ch.isUpper = false) ∧
      (∀ ch ∈ "foo".toList, ch.isUpper = false)) :=
  Prepare_resolved_invariant (testEnv [])
    { testOVFConfig with ChecksumType := "mD5".toList, Checksum := "FOo".toList }
    { testOVFConfig with ChecksumType := "md5".toList, Checksum := "foo".toList } []
    (by decide)

/-- Claim C15, checksum URL scheme dispatch: with an empty inline checksum, a
supported checksum type and a non-empty checksum URL that parses to a scheme
other than "http", "https", "file" and the empty scheme, `Prepare` returns at
once with an error list whose last error names the URL and the scheme, leaves
the checksum empty, and gives the same result whatever `http.Get` and
`os.Open` would return, so nothing is fetched. -/
theorem Prepare_scheme_not_supported (env : Env) (c : OVFConfig) (u : URL)
    (hck : c.Checksum = []) (hty : SupportedType env c.ChecksumType)
    (hurl : c.ChecksumURL ≠ []) (hu : env.urlParse c.ChecksumURL = .ok u)
    (h1 : u.Scheme ≠ "http".toList) (h2 : u.Scheme ≠ "https".toList)
    (h3 : u.Scheme ≠ "file".toList) (h4 : u.Scheme ≠ []) :
    c.Prepare env =
      .ret ({ c with ChecksumType := ToLower env c.ChecksumType, Checksum := [] }, [],
        sourcePathErrs c ++ [.schemeNotSupported c.ChecksumURL u.Scheme]) ∧
    (∀ (get : Str → Option Str) (opn : Str → Except Str Str),
      c.Prepare { env with httpGet := get, osOpen := opn } = c.Prepare env) := by
  obtain ⟨t1, t2, t3⟩ := hty
  simp only [String.toList] at t2 h1 h2 h3
  constructor
  · unfold OVFConfig.Prepare sourcePathErrs
    simp [t1, t2, t3, hck, hurl, hu, h1, h2, h3, h4]
  · intro get opn
    unfold OVFConfig.Prepare
    simp only [ToLower] at t2 t3
    simp [t1, t2, t3, hck, hurl, hu, h1, h2, h3, h4, ToLower]

/-- Claim C15, instance of `Prepare_scheme_not_supported`: the checksum URL
"ftp://www.packer.io/checksums.txt". -/
theorem Prepare_scheme_not_supported_witness :
    ftpURLConfig.Prepare (testEnv []) =
      .ret (ftpURLConfig, [],
        [.schemeNotSupported "ftp://www.packer.io/checksums.txt".toList "ftp".toList]) :=
  (Prepare_scheme_not_supported (testEnv []) ftpURLConfig
    ⟨"ftp".toList, "/checksums.txt".toList⟩
    (by decide) ⟨by decide, by decide, by decide⟩ (by decide) rfl
    (by decide) (by decide) (by decide) (by decide)).1

/-- Claim C16 as stated fails: without source path and with the checksum type
"none", `Prepare` returns the source-path error together with one warning. -/
theorem Prepare_required_field_with_warning :
    noSourceNoneConfig.SourcePath = [] ∧
    noSourceNoneConfig.Prepare (testEnv []) =
      .ret ({ noSourceNoneConfig with SourcePath := "file:".toList }, [warnNone],
        [.sourcePathRequired]) := by
  refine ⟨by decide, by decide⟩

/-- Claim C16, amended: with an empty checksum type, `Prepare` returns no
warning and an error list that holds the source-path-required error, if the
source path is empty too, and then the checksum-type-required error; with an
empty source path, a run of `Prepare` that returns gives an error list that
begins with the source-path-required error, and no warning unless the checksum
type is "none" up to letter case, where it gives the one warning for "none". -/
theorem Prepare_required_fields (env : Env) (c : OVFConfig) :
    (c.ChecksumType = [] →
      c.Prepare env =
        .ret ({ c with
                Checksum := ToLower env c.Checksum
                SourcePath := (env.DownloadableURL c.SourcePath).1 }, [],
          sourcePathErrs c ++ .checksumTypeRequired :: normErrs env c)) ∧
    (c.SourcePath = [] →
      c.Prepare env = .panic ∨
      ∃ c1 errs, c.Prepare env =
        .ret (c1, (if ToLower env c.ChecksumType = "none".toList then [warnNone] else []),
          .sourcePathRequired :: errs)) := by
  constructor
  · intro hty
    have hn : ¬ c.ChecksumType = "none".toList := by
      rw [hty]
      decide
    unfold OVFConfig.Prepare sourcePathErrs
    simp only [hty, if_true]
    rw [prepareEnd_eq, if_neg hn]
    simp [hty]
  · intro hsrc
    have hs : sourcePathErrs c = [.sourcePathRequired] := by
      simp [sourcePathErrs, hsrc]
    rcases Prepare_forms env c with ⟨hp, _⟩ | ⟨c2, e, _, hn, hp, _⟩ | ⟨hty, hp⟩ | ⟨cs, _, _, hp, _⟩
    · exact Or.inl hp
    · refine Or.inr ⟨c2, [e], ?_⟩
      rw [hp, hs, if_neg hn]
      rfl
    · have hn : ¬ ToLower env c.ChecksumType = "none".toList := by
        rw [hty]
        simp [ToLower]
      have hn2 : ¬ c.ChecksumType = "none".toList := by
        rw [hty]
        decide
      right
      rw [hp, prepareEnd_eq, hs, if_neg hn, if_neg hn2]
      exact ⟨_, _, rfl⟩
    · right
      rw [hp, prepareEnd_eq, hs]
      by_cases hn : ToLower env c.ChecksumType = "none".toList
      · rw [if_pos hn, if_pos hn]
        exact ⟨_, _, rfl⟩
      · rw [if_neg hn, if_neg hn]
        exact ⟨_, _, rfl⟩

/-- Claim C16, instance of `Prepare_required_fields`: the test configuration
with an empty checksum type and the test configuration with an empty source
path. -/
theorem Prepare_required_fields_witness :
    OVFConfig.Prepare (testEnv []) { testOVFConfig with ChecksumType := [] } =
      .ret ({ testOVFConfig with ChecksumType := [] }, [], [.checksumTypeRequired]) ∧
    (OVFConfig.Prepare (testEnv []) { testOVFConfig with SourcePath := [] } = .panic ∨
      ∃ c1 errs, OVFConfig.Prepare (testEnv []) { testOVFConfig with SourcePath := [] } =
        .ret (c1, [], .sourcePathRequired :: errs)) :=
  ⟨(Prepare_required_fields (testEnv []) { testOVFConfig with ChecksumType := [] }).1
      (by decide),
    (Prepare_required_fields (testEnv []) { testOVFConfig with SourcePath := [] }).2
      (by decide)⟩

/-! The parser: not found, first match, termination -/

/-- The scan ends with the not-found error exactly when no line matches. -/
theorem scanLines_notFound_iff (env : Env) (c : OVFConfig) (ls : List Str) :
    scanLines env c ls = .ret (c, some (.notFound (Base c.SourcePath) c.ChecksumURL)) ↔
    (ls.map Fields).find? (lineMatches env c.ChecksumType (Base c.SourcePath)) = none := by
  constructor
  · induction ls with
    | nil => intro _; rfl
    | cons l ls ih =>
      intro h
      cases hs : lineStep env c.ChecksumType (Base c.SourcePath) l with
      | next =>
        have hm := (lineStep_next_iff env _ _ l).1 hs
        simp only [scanLines, hs] at h
        simp only [List.map_cons, List.find?_cons, hm]
        exact ih h
      | found x =>
        simp only [scanLines, hs] at h
        simp at h
      | panic =>
        simp only [scanLines, hs] at h
        simp at h
  · exact scanLines_of_none env c ls

/-- A scan that has stored a checksum is not changed by further lines. -/
theorem scanLines_append_of_found (env : Env) (c c1 : OVFConfig) (xs ys : List Str)
    (h : scanLines env c xs = .ret (c1, none)) :
    scanLines env c (xs ++ ys) = .ret (c1, none) := by
  induction xs with
  | nil => simp [scanLines] at h
  | cons l ls ih =>
    rw [List.cons_append]
    cases hs : lineStep env c.ChecksumType (Base c.SourcePath) l with
    | next =>
      simp only [scanLines, hs] at h ⊢
      exact ih h
    | found x =>
      simp only [scanLines, hs] at h ⊢
      exact h
    | panic =>
      simp only [scanLines, hs] at h
      simp at h

/-- The read loop unfolds into its iterations. -/
theorem parseLoop_succ (env : Env) (c : OVFConfig) (fuel : Nat) (rd : Str) :
    parseLoop env c (fuel + 1) rd =
      match loopIteration env c rd with
      | .inl r => r
      | .inr rest => parseLoop env c fuel rest := by
  unfold loopIteration
  rw [parseLoop]
  by_cases hb : ((ReadString rd).2.1 = true ∧ (ReadString rd).1 = [])
  · simp only [hb, and_self, if_true]
  · simp only [hb, if_false]
    cases lineStep env c.ChecksumType (Base c.SourcePath) (ReadString rd).1 <;> rfl

/-- Claim C18, not-found exactly when nothing matches: `parseCheckSumFile`
returns the not-found error, which names the base name of the source path and
the checksum URL, and leaves the configuration unchanged, if and only if no
line of the text matches in either dialect (a match needs two fields or more
and compares the file name exactly with the base name); and when the manifest
fetched for the checksum URL has no matching line, `Prepare` returns at once
with that error at the end of its error list. -/
theorem parseCheckSumFile_not_found_iff (env : Env) (c : OVFConfig) (text : Str) :
    (c.parseCheckSumFile env text
        = .ret (c, some (.notFound (Base c.SourcePath) c.ChecksumURL)) ↔
      firstMatch env c.ChecksumType (Base c.SourcePath) text = none) ∧
    (c.Checksum = [] → SupportedType env c.ChecksumType → c.ChecksumURL ≠ [] →
      fetchManifest env c.ChecksumURL = some text →
      firstMatch env (ToLower env c.ChecksumType) (Base c.SourcePath) text = none →
      c.Prepare env =
        .ret ({ c with ChecksumType := ToLower env c.ChecksumType }, [],
          sourcePathErrs c ++ [.notFound (Base c.SourcePath) c.ChecksumURL])) := by
  constructor
  · rw [parseCheckSumFile_eq_scan]
    exact scanLines_notFound_iff env c (readLines text)
  · intro hck hty hurl hM hnone
    rw [Prepare_of_manifest env c text hck hty hurl hM, parseCheckSumFile_eq_scan,
      scanLines_of_none env { c with ChecksumType := ToLower env c.ChecksumType }
        (readLines text) hnone]
    rfl

/-- Claim C18, instance of `parseCheckSumFile_not_found_iff`: lines for
"the-os.ova" and for "dir/the-OS.ova" do not match the target "the-OS.ova",
and `Prepare` returns the not-found error. -/
theorem parseCheckSumFile_not_found_iff_witness :
    testURLConfig.Prepare (testEnv cs_other_names) =
      .ret (testURLConfig, [],
        [.notFound "the-OS.ova".toList "file:///tmp/packer-test-1".toList]) :=
  (parseCheckSumFile_not_found_iff (testEnv cs_other_names) testURLConfig cs_other_names).2
    (by decide) ⟨by decide, by decide, by decide⟩ (by decide) (by decide) (by decide)

/-- Claim C19, the first matching line wins: when `parseCheckSumFile` succeeds
on a text `p` that is empty or ends with a newline, it succeeds with the same
configuration, hence the same checksum, on `p` followed by any text. -/
theorem parseCheckSumFile_first_match_wins (env : Env) (c c1 : OVFConfig) (p s : Str)
    (hp : p = [] ∨ ∃ q, p = q ++ ['\n'])
    (hfound : c.parseCheckSumFile env p = .ret (c1, none)) :
    c.parseCheckSumFile env (p ++ s) = .ret (c1, none) := by
  rw [parseCheckSumFile_eq_scan] at hfound ⊢
  rcases hp with hp | ⟨q, hq⟩
  · subst hp
    simp [readLines, scanLines] at hfound
  · subst hq
    have e : q ++ ['\n'] ++ s = q ++ '\n' :: s := by simp
    rw [e, readLines_append]
    exact scanLines_append_of_found env c c1 _ _ hfound

/-- Claim C19, instance of `parseCheckSumFile_first_match_wins`: of two lines
for the target, the first gives the checksum "aaa". -/
theorem parseCheckSumFile_first_match_wins_witness :
    testURLConfig.parseCheckSumFile (testEnv []) cs_two_lines =
      .ret ({ testURLConfig with Checksum := "aaa".toList }, none) :=
  parseCheckSumFile_first_match_wins (testEnv []) testURLConfig
    { testURLConfig with Checksum := "aaa".toList }
    "aaa the-OS.ova\n".toList "bbb the-OS.ova\n".toList
    (Or.inr ⟨"aaa the-OS.ova".toList, by decide⟩) (by decide)

/-- Claim C20, termination of the manifest scan: an iteration of the read loop
that does not leave the loop leaves a shorter text unread; on the exhausted
text the iteration leaves the loop with the not-found error; the loop is its
iterations in sequence; and with more fuel than the text has runes the loop
returns the result of `parseCheckSumFile` and never runs out of fuel. -/
theorem parseLoop_terminates (env : Env) (c : OVFConfig) :
    (∀ rd rest, loopIteration env c rd = .inr rest → rest.length < rd.length) ∧
    loopIteration env c []
      = .inl (.ret (c, some (.notFound (Base c.SourcePath) c.ChecksumURL))) ∧
    (∀ fuel rd, parseLoop env c (fuel + 1) rd =
      match loopIteration env c rd with
      | .inl r => r
      | .inr rest => parseLoop env c fuel rest) ∧
    (∀ text fuel, text.length < fuel →
      parseLoop env c fuel text = c.parseCheckSumFile env text ∧
      parseLoop env c fuel text ≠ .outOfFuel) := by
  refine ⟨?_, ?_, parseLoop_succ env c, ?_⟩
  · intro rd rest h
    by_cases hrd : rd = []
    · subst hrd
      simp [loopIteration, ReadString] at h
    · have hlen := ReadString_rest_length rd hrd
      unfold loopIteration at h
      by_cases hb : ((ReadString rd).2.1 = true ∧ (ReadString rd).1 = [])
      · simp only [hb, and_self, if_true] at h
        exact absurd h (by simp)
      · simp only [hb, if_false] at h
        cases hs : lineStep env c.ChecksumType (Base c.SourcePath) (ReadString rd).1 with
        | next =>
          simp only [hs, Sum.inr.injEq] at h
          rw [← h]
          exact hlen
        | found x =>
          simp only [hs] at h
          exact absurd h (by simp)
        | panic =>
          simp only [hs] at h
          exact absurd h (by simp)
  · simp [loopIteration, ReadString]
  · intro text fuel hlt
    have h1 := parseLoop_eq_scan env c fuel text hlt
    have h2 := parseCheckSumFile_eq_scan env c text
    refine ⟨h1.trans h2.symm, ?_⟩
    rw [h1]
    rcases scanLines_cases env c (readLines text) with ⟨h, _, hs⟩ | hs | hs <;>
      rw [hs] <;> simp

/-- Claim C20, instance of `parseLoop_terminates`: on the BSD manifest of the
tests the first iteration reads the empty first line and goes on with the 45
runes left, and forty-seven iterations are enough. -/
theorem parseLoop_terminates_witness :
    (cs_bsd_style.drop 1).length < cs_bsd_style.length ∧
    (parseLoop (testEnv []) testURLConfig 47 cs_bsd_style
        = testURLConfig.parseCheckSumFile (testEnv []) cs_bsd_style ∧
      parseLoop (testEnv []) testURLConfig 47 cs_bsd_style ≠ .outOfFuel) :=
  ⟨(parseLoop_terminates (testEnv []) testURLConfig).1 cs_bsd_style (cs_bsd_style.drop 1)
      (by decide),
    (parseLoop_terminates (testEnv []) testURLConfig).2.2.2 cs_bsd_style 47 (by decide)⟩

/-! Builder.Run: classification of the outcome -/

/-- Claim C11, precedence of the outcomes of `Builder.Run`: on the state bag
left by the runner, (1) when the key "error" holds an error, that error is
returned without artifact, whatever the other flags are; (2) otherwise, when
the cancelled flag is present, the error "Build was cancelled." is returned,
whatever the halted flag is; (3) otherwise, when the halted flag is present,
the error "Build was halted."; (4) otherwise the result of
`vboxcommon.NewArtifact` on the output directory of the configuration; an
artifact is returned in case (4) only; and `Builder.Run` with a driver is this
classification of the state bag that the runner leaves. -/
theorem Run_outcome_precedence (env : RunEnv) (b : Builder) (state : StateBag) :
    (∀ e, GetOk state keyError = some (.error e) →
      reportOutcome env b state = .ret (none, some (.stored e))) ∧
    (GetOk state keyError = none → GetOk state StateCancelled ≠ none →
      reportOutcome env b state = .ret (none, some .cancelled)) ∧
    (GetOk state keyError = none → GetOk state StateCancelled = none →
      GetOk state StateHalted ≠ none →
      reportOutcome env b state = .ret (none, some .halted)) ∧
    (GetOk state keyError = none → GetOk state StateCancelled = none →
      GetOk state StateHalted = none →
      reportOutcome env b state =
        match env.NewArtifact b.config.Sub.OutputDir with
        | .ok a => .ret (some a, none)
        | .error e => .ret (none, some (.artifactFailed e))) ∧
    (∀ a err, reportOutcome env b state = .ret (some a, err) →
      GetOk state keyError = none ∧ GetOk state StateCancelled = none ∧
      GetOk state StateHalted = none ∧ err = none ∧
      env.NewArtifact b.config.Sub.OutputDir = .ok a) ∧
    (∀ driver, env.NewDriver = .ok driver →
      b.Run env = reportOutcome env b
        (runnerRun env.cancelSignal (env.steps b.config) (initialState driver)).1) := by
  refine ⟨?_, ?_, ?_, ?_, ?_, ?_⟩
  · intro e he
    simp [reportOutcome, he]
  · intro he hc
    have hc2 : (GetOk state StateCancelled).isSome = true := by
      cases h : GetOk state StateCancelled with
      | none => exact absurd h hc
      | some v => rfl
    simp [reportOutcome, he, hc2]
  · intro he hc hh
    have hh2 : (GetOk state StateHalted).isSome = true := by
      cases h : GetOk state StateHalted with
      | none => exact absurd h hh
      | some v => rfl
    simp [reportOutcome, he, hc, hh2]
  · intro he hc hh
    simp [reportOutcome, he, hc, hh]
  · intro a err h
    unfold reportOutcome at h
    cases he : GetOk state keyError with
    | some v =>
      cases v with
      | error e => simp [he] at h
      | other t => simp [he] at h
    | none =>
      simp only [he] at h
      cases hc : GetOk state StateCancelled with
      | some v => simp [hc] at h
      | none =>
        cases hh : GetOk state StateHalted with
        | some v => simp [hc, hh] at h
        | none =>
          cases hn : env.NewArtifact b.config.Sub.OutputDir with
          | error e => simp [hc, hh, hn] at h
          | ok a1 =>
            simp [hc, hh, hn] at h
            simp [h.1, h.2]
  · intro driver hd
    simp [Builder.Run, hd]

/-- Claim C11, instance of `Run_outcome_precedence`: a state bag with an
error, the cancelled flag and the halted flag gives the error. -/
theorem Run_outcome_precedence_witness :
    reportOutcome (testRunEnv []) { config := testConfig }
      [(keyError, .error "boom".toList), (StateCancelled, .other "true".toList),
        (StateHalted, .other "true".toList)]
      = .ret (none, some (.stored "boom".toList)) :=
  (Run_outcome_precedence (testRunEnv []) { config := testConfig }
    [(keyError, .error "boom".toList), (StateCancelled, .other "true".toList),
      (StateHalted, .other "true".toList)]).1 "boom".toList (by decide)

/-! Builder.Prepare: the guest additions mode -/

/-- Membership in the list of valid modes, as the loop computes it. -/
theorem validModeLoop_iff (mode : Str) (modes : List Str) :
    validModeLoop mode modes = true ↔ mode ∈ modes := by
  induction modes with
  | nil => simp [validModeLoop]
  | cons m ms ih =>
    by_cases h : mode = m
    · simp [validModeLoop, h]
    · simp [validModeLoop, h, ih]

/-- A run of `OVFConfig.Prepare` returns or panics; it does not run out of fuel. -/
theorem Prepare_ret_or_panic (env : Env) (c : OVFConfig) :
    c.Prepare env = .panic ∨ ∃ c1 w errs, c.Prepare env = .ret (c1, w, errs) := by
  rcases Prepare_forms env c with ⟨hp, _⟩ | ⟨c2, e, _, _, hp, _⟩ | ⟨_, hp⟩ | ⟨cs, _, _, hp, _⟩
  · exact Or.inl hp
  · exact Or.inr ⟨_, _, _, hp⟩
  · exact Or.inr ⟨_, _, _, hp⟩
  · exact Or.inr ⟨_, _, _, hp⟩

/-- The lowercasing of the checksum of the guest additions keeps the mode. -/
theorem GuestAdditionsMode_lower (env : BuildEnv) (config : Config) :
    (lowerGuestAdditionsSHA256 env config).GuestAdditionsMode = config.GuestAdditionsMode := by
  unfold lowerGuestAdditionsSHA256
  split_ifs <;> rfl

/-- The import options keep the mode. -/
theorem GuestAdditionsMode_importOpts (config : Config) :
    (appendImportOpts config).GuestAdditionsMode = config.GuestAdditionsMode := by
  unfold appendImportOpts
  split_ifs <;> rfl

/-- The default of the name of the machine keeps the mode. -/
theorem GuestAdditionsMode_vmName (env : BuildEnv) (config : Config) :
    (defaultVMName env config).GuestAdditionsMode = config.GuestAdditionsMode := by
  unfold defaultVMName
  split_ifs <;> rfl

/-- The default of the guest additions path keeps the mode. -/
theorem GuestAdditionsMode_path (config : Config) :
    (defaultGuestAdditionsPath config).GuestAdditionsMode = config.GuestAdditionsMode := by
  unfold defaultGuestAdditionsPath
  split_ifs <;> rfl

/-- The validation of the guest additions mode outside the panic of the
parser: for every decoded configuration, either `OVFConfig.Prepare` panics and
so does `Builder.Prepare`, or `Builder.Prepare` returns, an empty mode has been
replaced by "upload", and the error returned holds the error
"guest_additions_mode is invalid" with the list of the three valid modes if
and only if the mode after defaulting is not one of "disable", "attach" and
"upload", compared exactly. -/
theorem Builder_Prepare_guest_additions_mode (env : BuildEnv) (b : Builder)
    (config : Config) :
    (b.Prepare env (.ok config) = .panic ∧ config.OVFConfig.Prepare env.ovf = .panic) ∨
    ∃ b1 warnings err,
      b.Prepare env (.ok config) = .ret (b1, warnings, err) ∧
      b1.config.GuestAdditionsMode =
        (if config.GuestAdditionsMode = [] then "upload".toList
         else config.GuestAdditionsMode) ∧
      ((∃ errs, err = some (.multi errs) ∧
          ConfigErr.guestAdditionsModeInvalid
            ["disable".toList, "attach".toList, "upload".toList] ∈ errs) ↔
        b1.config.GuestAdditionsMode ∉
          ["disable".toList, "attach".toList, "upload".toList]) := by
  rcases Prepare_ret_or_panic env.ovf config.OVFConfig with hp | ⟨c1, w, es, hp⟩
  · left
    exact ⟨by simp [Builder.Prepare, hp], hp⟩
  · right
    unfold Builder.Prepare
    simp only [hp]
    refine ⟨_, _, _, rfl, ?_, ?_⟩
    · simp only [GuestAdditionsMode_lower, GuestAdditionsMode_importOpts,
        GuestAdditionsMode_vmName, GuestAdditionsMode_path]
      unfold defaultGuestAdditionsMode
      by_cases hm : config.GuestAdditionsMode = [] <;> simp [hm]
    · simp only [GuestAdditionsMode_lower]
      generalize appendImportOpts _ = cfg
      have hbase : ∀ vm, ConfigErr.guestAdditionsModeInvalid vm ∉
          List.map ConfigErr.ovf es ++ List.map ConfigErr.sub (env.subPrepare config.Sub).2 := by
        intro vm hmem
        rcases List.mem_append.1 hmem with h | h
        · obtain ⟨x, _, hx⟩ := List.mem_map.1 h
          exact absurd hx (by simp)
        · obtain ⟨x, _, hx⟩ := List.mem_map.1 h
          exact absurd hx (by simp)
      generalize List.map ConfigErr.ovf es ++ List.map ConfigErr.sub _ = base at hbase ⊢
      have hv := validModeLoop_iff cfg.GuestAdditionsMode
        [GuestAdditionsModeDisable, GuestAdditionsModeAttach, GuestAdditionsModeUpload]
      have hmodes : [GuestAdditionsModeDisable, GuestAdditionsModeAttach,
          GuestAdditionsModeUpload] = ["disable".toList, "attach".toList, "upload".toList] := rfl
      unfold checkGuestAdditionsMode
      simp only []
      rw [hmodes] at hv ⊢
      cases hval : validModeLoop cfg.GuestAdditionsMode
          ["disable".toList, "attach".toList, "upload".toList] with
      | false =>
        have hnot : cfg.GuestAdditionsMode ∉
            ["disable".toList, "attach".toList, "upload".toList] := by
          intro h
          rw [hv.2 h] at hval
          exact absurd hval (by simp)
        constructor
        · intro _
          exact hnot
        · intro _
          exact ⟨base ++ [.guestAdditionsModeInvalid
            ["disable".toList, "attach".toList, "upload".toList]], by simp, by simp⟩
      | true =>
        have hin := hv.1 hval
        constructor
        · rintro ⟨errs, he, hmem⟩
          by_cases hb : base = []
          · simp [hb] at he
          · simp [hb] at he
            rw [← he] at hmem
            exact absurd hmem (hbase _)
        · intro h
          exact absurd hin h

/-- Two runs of `Builder.Prepare`: the sample configuration, whose mode is
empty, gets the mode "upload" and no error; with the mode "Upload" the error
for the invalid mode is returned. -/
theorem Builder_Prepare_guest_additions_mode_examples :
    Builder.Prepare testBuildEnv { config := testConfig } (.ok testConfig) =
      .ret ({ config := { testConfig with
                GuestAdditionsMode := "upload".toList
                GuestAdditionsPath := "VBoxGuestAdditions.iso".toList
                VMName := "packer-test-0".toList } },
        [warnShutdown], none) ∧
    Builder.Prepare testBuildEnv { config := testConfig }
        (.ok { testConfig with GuestAdditionsMode := "Upload".toList }) =
      .ret ({ config := { testConfig with
                GuestAdditionsMode := "Upload".toList
                GuestAdditionsPath := "VBoxGuestAdditions.iso".toList
                VMName := "packer-test-0".toList } },
        [warnShutdown],
        some (.multi [.guestAdditionsModeInvalid
          ["disable".toList, "attach".toList, "upload".toList]])) := by
  refine ⟨by decide, by decide⟩

/-! The step runner: cleanup in reverse order -/

/-- The cleanup adds one event for each started step, the latest first. -/
theorem cleanupAll_log (started : List (Nat × Step)) :
    ∀ (state : StateBag) (log : List Event),
      (cleanupAll started state log).2 = log ++ started.map (fun p => Event.cleanup p.1) := by
  induction started with
  | nil => intro state log; simp [cleanupAll]
  | cons p ps ih =>
    intro state log
    obtain ⟨k, s⟩ := p
    simp [cleanupAll, ih]

/-- The main loop on a non-empty list of steps, by cases on the state bag
after the check of the cancellation signal. -/
theorem mainLoop_cons (cancelSignal : Nat → Bool) (s : Step) (rest : List Step)
    (k : Nat) (rs : RunnerState) (state : StateBag)
    (hst : state = if cancelSignal k then Put rs.state StateCancelled (.other "true".toList)
      else rs.state) :
    mainLoop cancelSignal (s :: rest) k rs =
      if (GetOk state StateCancelled).isSome then ({ rs with state := state }, .cancelled)
      else
        match (s.Run state).2 with
        | .ActionContinue =>
          mainLoop cancelSignal rest (k + 1)
            { state := (s.Run state).1, started := (k, s) :: rs.started,
              log := rs.log ++ [.run k] }
        | .ActionHalt =>
          ({ state := Put (s.Run state).1 StateHalted (.other "true".toList),
             started := (k, s) :: rs.started, log := rs.log ++ [.run k] }, .halted) := by
  subst hst
  rw [mainLoop]

/-- One pass of the main loop on a step that runs and goes on. -/
theorem mainLoop_cons_completed (cancelSignal : Nat → Bool) (s : Step) (rest : List Step)
    (k : Nat) (rs rs1 : RunnerState)
    (h : mainLoop cancelSignal (s :: rest) k rs = (rs1, .completed)) :
    ∃ state, mainLoop cancelSignal rest (k + 1)
        { state := state, started := (k, s) :: rs.started, log := rs.log ++ [.run k] }
      = (rs1, .completed) := by
  rw [mainLoop_cons cancelSignal s rest k rs _ rfl] at h
  generalize (if cancelSignal k = true then
    Put rs.state StateCancelled (.other "true".toList) else rs.state) = st at h
  by_cases hc : (GetOk st StateCancelled).isSome = true
  · rw [if_pos hc] at h
    simp at h
  · rw [if_neg hc] at h
    cases hr : (s.Run st).2 with
    | ActionContinue =>
      simp only [hr] at h
      exact ⟨_, h⟩
    | ActionHalt =>
      simp only [hr] at h
      simp at h

/-- When the main loop completes a list of steps, it has logged their runs in
order and holds them as started, the latest first. -/
theorem mainLoop_completed (cancelSignal : Nat → Bool) (pre : List Step) :
    ∀ (k : Nat) (rs rs1 : RunnerState),
      mainLoop cancelSignal pre k rs = (rs1, .completed) →
      rs1.log = rs.log ++ (List.range' k pre.length).map Event.run ∧
      rs1.started.map Prod.fst = (List.range' k pre.length).reverse ++ rs.started.map Prod.fst := by
  induction pre with
  | nil =>
    intro k rs rs1 h
    simp only [mainLoop, Prod.mk.injEq, and_true] at h
    subst h
    simp
  | cons s rest ih =>
    intro k rs rs1 h
    obtain ⟨state, h2⟩ := mainLoop_cons_completed cancelSignal s rest k rs rs1 h
    obtain ⟨e1, e2⟩ := ih (k + 1) _ rs1 h2
    constructor
    · rw [e1]
      simp [List.range'_succ]
    · rw [e2]
      simp [List.range'_succ]

/-- When the main loop completes a list of steps, it goes on with the steps
that follow them. -/
theorem mainLoop_append (cancelSignal : Nat → Bool) (pre rest : List Step) :
    ∀ (k : Nat) (rs rs1 : RunnerState),
      mainLoop cancelSignal pre k rs = (rs1, .completed) →
      mainLoop cancelSignal (pre ++ rest) k rs
        = mainLoop cancelSignal rest (k + pre.length) rs1 := by
  induction pre with
  | nil =>
    intro k rs rs1 h
    simp only [mainLoop, Prod.mk.injEq, and_true] at h
    subst h
    simp
  | cons s pre ih =>
    intro k rs rs1 h
    rw [List.cons_append, mainLoop_cons cancelSignal s (pre ++ rest) k rs _ rfl]
    rw [mainLoop_cons cancelSignal s pre k rs _ rfl] at h
    generalize (if cancelSignal k = true then
      Put rs.state StateCancelled (.other "true".toList) else rs.state) = st at h ⊢
    by_cases hc : (GetOk st StateCancelled).isSome = true
    · rw [if_pos hc] at h
      simp at h
    · rw [if_neg hc] at h
      rw [if_neg hc]
      cases hr : (s.Run st).2 with
      | ActionContinue =>
        simp only [hr] at h ⊢
        rw [ih (k + 1) _ rs1 h]
        simp [Nat.add_assoc, Nat.add_comm 1]
      | ActionHalt =>
        simp only [hr] at h
        simp at h

/-- Claim C17, cleanup in reverse order under failure: when the steps from 1
to k-1 have run and gone on without cancellation (the main loop completes
them), cancellation is not observed before step k, and step k returns `Halt`
(as a step does that has written the key "error"), then the events of the
runner are the runs of the steps 1 to k in order, followed by the cleanups of
the steps k down to 1: no step after k is run or cleaned up. -/
theorem runner_cleanup_after_failure (cancelSignal : Nat → Bool) (pre : List Step)
    (s : Step) (post : List Step) (state : StateBag) (rs1 : RunnerState)
    (hpre : mainLoop cancelSignal pre 1 { state := state, started := [], log := [] }
      = (rs1, .completed))
    (hsig : cancelSignal (pre.length + 1) = false)
    (hflag : GetOk rs1.state StateCancelled = none)
    (hhalt : (s.Run rs1.state).2 = .ActionHalt) :
    (runnerRun cancelSignal (pre ++ s :: post) state).2 =
      (List.range' 1 (pre.length + 1)).map Event.run ++
        (List.range' 1 (pre.length + 1)).reverse.map Event.cleanup := by
  obtain ⟨e1, e2⟩ := mainLoop_completed cancelSignal pre 1 _ rs1 hpre
  have hstarted : rs1.started.map (fun p => Event.cleanup p.1)
      = (List.range' 1 pre.length).reverse.map Event.cleanup := by
    have : rs1.started.map (fun p => Event.cleanup p.1)
        = (rs1.started.map Prod.fst).map Event.cleanup := by simp
    rw [this, e2]
    simp
  have hloop : mainLoop cancelSignal (pre ++ s :: post) 1
      { state := state, started := [], log := [] }
      = ({ state := Put (s.Run rs1.state).1 StateHalted (.other "true".toList),
           started := (pre.length + 1, s) :: rs1.started,
           log := rs1.log ++ [.run (pre.length + 1)] }, .halted) := by
    rw [mainLoop_append cancelSignal pre (s :: post) 1 _ rs1 hpre, Nat.add_comm 1,
      mainLoop_cons cancelSignal s post (pre.length + 1) rs1 rs1.state (by simp [hsig])]
    simp [hflag, hhalt]
  unfold runnerRun
  simp only [hloop]
  rw [cleanupAll_log]
  simp only [List.map_cons, hstarted, e1]
  simp [List.range'_concat, Nat.add_comm]

/-- Claim C17, instance of `runner_cleanup_after_failure`: of four steps the
third signals a fatal error; the first three are run, then cleaned up in the
order 3, 2, 1, and the fourth is not run. -/
theorem runner_cleanup_after_failure_witness :
    (runnerRun (fun _ => false) ([stepContinue, stepContinue] ++ stepFail :: [stepContinue])
        []).2 =
      [Event.run 1, Event.run 2, Event.run 3] ++
        [Event.cleanup 3, Event.cleanup 2, Event.cleanup 1] :=
  runner_cleanup_after_failure (fun _ => false) [stepContinue, stepContinue] stepFail
    [stepContinue] []
    { state := [], started := [(2, stepContinue), (1, stepContinue)],
      log := [.run 1, .run 2] }
    rfl rfl rfl rfl

/-! Prepare: the unresolved checksum and the accumulation of errors; the panic in Builder.Prepare -/

/-- Claim C5, amended. For a checksum type that is neither empty nor "none":
(1) unless the inline checksum is empty, the checksum URL is not empty, the
type is supported and the URL parses to an empty scheme, `Prepare` either
returns with an error or with a non-empty checksum, or panics, and it panics
only when the inline checksum is empty and the first matching line of the
manifest fetched is a BSD line with fewer than four fields; (2) in the case
excepted in (1), `Prepare` returns without warning, adds no checksum error
(the error list is the source-path errors alone) and leaves the checksum
empty. -/
theorem Prepare_checksum_resolved (env : Env) (c : OVFConfig)
    (hty : c.ChecksumType ≠ [])
    (hnone : ToLower env c.ChecksumType ≠ "none".toList) :
    ((c.Checksum = [] → c.ChecksumURL ≠ [] →
        env.HashForType (ToLower env c.ChecksumType) = true →
        ∀ u, env.urlParse c.ChecksumURL = .ok u → u.Scheme ≠ []) →
      (c.Prepare env = .panic ∧ c.Checksum = [] ∧
        ∃ M, fetchManifest env c.ChecksumURL = some M ∧ shortBSDLine env c M) ∨
      ∃ c1 w errs, c.Prepare env = .ret (c1, w, errs) ∧ (errs ≠ [] ∨ c1.Checksum ≠ [])) ∧
    (c.Checksum = [] → c.ChecksumURL ≠ [] →
      env.HashForType (ToLower env c.ChecksumType) = true →
      ∀ u, env.urlParse c.ChecksumURL = .ok u → u.Scheme = [] →
      c.Prepare env =
        .ret ({ c with
                ChecksumType := ToLower env c.ChecksumType
                Checksum := []
                SourcePath := (env.DownloadableURL c.SourcePath).1 }, [],
          sourcePathErrs c ++ normErrs env c)) := by
  constructor
  · intro hscheme
    rcases Prepare_forms env c with h1 | ⟨c1, e, _, _, hp, _⟩ | ⟨hty2, _⟩ |
      ⟨cs, _, _, hp, hcs⟩
    · exact Or.inl h1
    · exact Or.inr ⟨_, _, _, hp, Or.inl (by simp)⟩
    · exact absurd hty2 hty
    · rw [prepareEnd_eq] at hp
      rcases hcs with hne | ⟨hn, _⟩ | ⟨hck, hurl, _, hsup, u, hu, he⟩
      · refine Or.inr ⟨_, _, _, hp, Or.inr ?_⟩
        simpa [ToLower] using hne
      · exact absurd hn hnone
      · exact absurd he (hscheme hck hurl hsup u hu)
  · intro hck hurl hsup u hu he
    have hl : ToLower env ([] : Str) = [] := rfl
    simp only [String.toList] at hnone
    unfold OVFConfig.Prepare sourcePathErrs
    rw [if_neg hty]
    simp only [String.toList]
    simp [hnone, hck, hurl, hsup, hu, he, prepareEnd_eq, normErrs, hl]

/-- Claim C5, instance of `Prepare_checksum_resolved`: with the BSD manifest of
the tests the first part applies; with the checksum URL "checksums.txt", of
empty scheme, `Prepare` returns no error and an empty checksum. -/
theorem Prepare_checksum_resolved_witness :
    ((testURLConfig.Prepare (testEnv cs_bsd_style) = .panic ∧ testURLConfig.Checksum = [] ∧
        ∃ M, fetchManifest (testEnv cs_bsd_style) testURLConfig.ChecksumURL = some M ∧
          shortBSDLine (testEnv cs_bsd_style) testURLConfig M) ∨
      ∃ c1 w errs, testURLConfig.Prepare (testEnv cs_bsd_style) = .ret (c1, w, errs) ∧
        (errs ≠ [] ∨ c1.Checksum ≠ [])) ∧
    noSchemeConfig.Prepare (testEnv []) = .ret (noSchemeConfig, [], []) :=
  ⟨(Prepare_checksum_resolved (testEnv cs_bsd_style) testURLConfig (by decide) (by decide)).1
      (by
        intro _ _ _ u hu
        have hp : (testEnv cs_bsd_style).urlParse testURLConfig.ChecksumURL
            = .ok ⟨"file".toList, "/tmp/packer-test-1".toList⟩ := rfl
        rw [hp] at hu
        cases hu
        decide),
    (Prepare_checksum_resolved (testEnv []) noSchemeConfig (by decide) (by decide)).2
      (by decide) (by decide) (by decide) ⟨[], "checksums.txt".toList⟩ rfl rfl⟩

/-- Claim C14 fails on the code: on a decoded configuration with an empty
guest additions mode, whose checksum URL gives the one-line manifest
"MD5 (the-OS.ova)", the call of `OVFConfig.Prepare` at line 75 panics on
`parts[3]`, so `Builder.Prepare` panics before lines 91-126: the empty mode is
not replaced by "upload" and no error is returned. -/
theorem Builder_Prepare_panics_on_short_bsd_line :
    manifestConfig.GuestAdditionsMode = [] ∧
    manifestConfig.OVFConfig.Prepare shortManifestBuildEnv.ovf = .panic ∧
    Builder.Prepare shortManifestBuildEnv { config := manifestConfig } (.ok manifestConfig)
      = .panic := by
  refine ⟨by decide, by decide, by decide⟩

end OVF
